import Mathlib

/-!
# Dots watchface (`src/c/main.c`)

A shallow embedding of the watchface's C code and the properties of its
rendering.  Every C function of `main.c` that touches the graphics context is
a function on an explicit graphics state `GBC_Graphics`; the state also keeps
the list of library calls issued so far, so that the order of operations can be
stated.

Conventions.
* C `int` coordinates are `Int`; tile indices, palettes and `char` codes are
  `Nat` (they are `uint8_t` / small non-negative values in the program).  The
  sums `x + start_x` and `x + y * NUMBER_WIDTH` are taken in `Int` and `Nat`
  without wrap-around: the anchors of the program are below 15 and the loop
  counters below the glyph dimensions.  Where a property names the cells
  written for an arbitrary anchor, the anchor is taken with its footprint
  inside the tilemap, so that no C `int` sum overflows.  The narrower types are
  reduced explicitly: the `uint16_t` tile count modulo `2 ^ 16`, the `uint8_t`
  loop counters modulo 256.
* A result `none` stands for an execution the model gives no result to: an
  out-of-bounds table read, a `strftime` whose output is unspecified, or a loop
  that has not finished within the given fuel.
* `numbers.h` and the graphics library header are not part of the sources.
  Their compile-time constants are the fields of `Config`; the library
  functions are modelled from the interface the specification lists.
-/

namespace Dots

/-! ## Configuration and graphics state -/

/-- Compile-time constants that `main.c` takes from headers outside the
sources: the platform switches `PBL_ROUND` and `PBL_COLOR`, the glyph table of
`numbers.h` (`NUMBER_WIDTH`, `NUMBER_HEIGHT`, `NUMBERS`) and the tilemap
dimensions and tile size of the graphics library. -/
structure Config where
  PBL_ROUND : Bool
  PBL_COLOR : Bool
  NUMBER_WIDTH : Nat
  NUMBER_HEIGHT : Nat
  NUMBERS : List (List Nat)
  GBC_TILEMAP_WIDTH : Nat
  GBC_TILEMAP_HEIGHT : Nat
  GBC_TILE_NUM_BYTES : Nat

/-- Colour constants named in `create_palettes`. -/
inductive Color where
  | GColorBlackARGB8
  | GColorWhiteARGB8
  | GBC_COLOR_BLACK
  | GBC_COLOR_WHITE
  deriving DecidableEq

/-- Resource identifiers; the watchface has the one tilesheet. -/
inductive ResourceId where
  | RESOURCE_ID_DATA_DOT_TILESHEET
  deriving DecidableEq

/-- One call of `main.c` into the graphics library that changes the graphics
context, with its arguments. -/
inductive GfxCall where
  | ctor (vram_banks : Nat)
  | load_from_tilesheet_into_vram (resource : ResourceId)
      (tilesheet_start_offset tiles_to_load vram_start_offset vram_bank : Nat)
  | set_bg_palette (palette : Nat) (c0 c1 c2 c3 : Color)
  | bg_set_tile (x y : Int) (tile : Nat)
  | bg_set_tile_palette (x y : Int) (palette : Nat)
  | bg_move (dx dy : Int)
  | window_set_offset_y (offset : Nat)
  | render
  deriving DecidableEq

/-- Modelled from the spec: the graphics context of the library
(`pebble-gbc-graphics`), which is not part of the sources.  Following the
consumed interface of the specification it holds a background tilemap (a tile
index per cell), a tile-palette per cell, the background palettes, the
background scroll offset, the overlay (window) layer offset and the screen
height; `calls` records the calls made on the context, oldest first. -/
structure GBC_Graphics where
  vram_banks : Nat
  bg_palettes : Nat → Option (Color × Color × Color × Color)
  bg_tilemap : Int → Int → Nat
  bg_attrmap : Int → Int → Nat
  bg_scroll_x : Int
  bg_scroll_y : Int
  window_offset_y : Nat
  screen_height : Nat
  calls : List GfxCall

/-! ## The graphics library -/

/-- Modelled from the spec: `GBC_Graphics_ctor(window, banks)` constructs the
context.  What a new context holds in its tilemaps is not specified, so the
memory it starts from is the argument `fresh`; the call log starts here. -/
def GBC_Graphics_ctor (fresh : GBC_Graphics) (vram_banks : Nat) : GBC_Graphics :=
  { fresh with vram_banks := vram_banks, calls := [GfxCall.ctor vram_banks] }

/-- Modelled from the spec: load-from-tilesheet-into-VRAM.  The contents of
video memory play no part in the properties below; the call is recorded. -/
def GBC_Graphics_load_from_tilesheet_into_vram (g : GBC_Graphics) (resource : ResourceId)
    (tilesheet_start_offset tiles_to_load vram_start_offset vram_bank : Nat) : GBC_Graphics :=
  { g with calls := g.calls ++ [GfxCall.load_from_tilesheet_into_vram resource
      tilesheet_start_offset tiles_to_load vram_start_offset vram_bank] }

/-- Modelled from the spec: set background palette number `palette` to the
four colours given. -/
def GBC_Graphics_set_bg_palette (g : GBC_Graphics) (palette : Nat) (c0 c1 c2 c3 : Color) :
    GBC_Graphics :=
  { g with
    bg_palettes := fun p => if p = palette then some (c0, c1, c2, c3) else g.bg_palettes p,
    calls := g.calls ++ [GfxCall.set_bg_palette palette c0 c1 c2 c3] }

/-- Modelled from the spec: set background tile at `(x, y)`; the cell gets the
tile index, every other cell and every tile-palette is left as it was. -/
def GBC_Graphics_bg_set_tile (g : GBC_Graphics) (x y : Int) (tile : Nat) : GBC_Graphics :=
  { g with
    bg_tilemap := fun cx cy => if cx = x ∧ cy = y then tile else g.bg_tilemap cx cy,
    calls := g.calls ++ [GfxCall.bg_set_tile x y tile] }

/-- Modelled from the spec: set background tile-palette at `(x, y)`; the tile
indices are left as they were. -/
def GBC_Graphics_bg_set_tile_palette (g : GBC_Graphics) (x y : Int) (palette : Nat) :
    GBC_Graphics :=
  { g with
    bg_attrmap := fun cx cy => if cx = x ∧ cy = y then palette else g.bg_attrmap cx cy,
    calls := g.calls ++ [GfxCall.bg_set_tile_palette x y palette] }

/-- Modelled from the spec: move the background by a pixel offset. -/
def GBC_Graphics_bg_move (g : GBC_Graphics) (dx dy : Int) : GBC_Graphics :=
  { g with
    bg_scroll_x := g.bg_scroll_x + dx,
    bg_scroll_y := g.bg_scroll_y + dy,
    calls := g.calls ++ [GfxCall.bg_move dx dy] }

/-- Modelled from the spec: set the overlay-layer y-offset. -/
def GBC_Graphics_window_set_offset_y (g : GBC_Graphics) (offset : Nat) : GBC_Graphics :=
  { g with window_offset_y := offset, calls := g.calls ++ [GfxCall.window_set_offset_y offset] }

/-- Modelled from the spec: query the screen height (a read; nothing is recorded). -/
def GBC_Graphics_get_screen_height (g : GBC_Graphics) : Nat :=
  g.screen_height

/-- Modelled from the spec: request a render of the context. -/
def GBC_Graphics_render (g : GBC_Graphics) : GBC_Graphics :=
  { g with calls := g.calls ++ [GfxCall.render] }

/-! ## The C library: broken-down time and `strftime` -/

/-- Modelled from the spec: the broken-down local time of the C library, which
is not part of the sources.  These are the two fields of `struct tm` that the
formats of `update_time` read; they are C `int`s that `localtime` fills with
non-negative values. -/
structure Tm where
  tm_hour : Nat
  tm_min : Nat

/-- Modelled from the spec: a number below 100 as two decimal characters, given
by their codes (`'0'` is 48). -/
def two_digits (n : Nat) : List Nat :=
  ['0'.toNat + n / 10, '0'.toNat + n % 10]

/-- Modelled from the spec: the hour on the 12-hour clock, 01 to 12, with a
zero hour shown as 12. -/
def hour_12 (tm_hour : Nat) : Nat :=
  if tm_hour = 0 then 12 else if 12 < tm_hour then tm_hour - 12 else tm_hour

/-- Modelled from the spec: one conversion specifier of `strftime`, which is
outside the sources, as the C standard defines it and the specification of the
clock driver restates it: `%H` is the hour of the 24-hour clock as a decimal
number 00-23, `%I` the hour of the 12-hour clock 01-12, `%M` the minute 00-59.
A field outside its normal range makes the stored characters unspecified
(`none`); so does a specifier that `main.c` does not use. -/
def strftime_conversion (spec : Char) (tm : Tm) : Option (List Nat) :=
  if spec = 'H' then
    if tm.tm_hour ≤ 23 then some (two_digits tm.tm_hour) else none
  else if spec = 'I' then
    if tm.tm_hour ≤ 23 then some (two_digits (hour_12 tm.tm_hour)) else none
  else if spec = 'M' then
    if tm.tm_min ≤ 59 then some (two_digits tm.tm_min) else none
  else none

/-- Modelled from the spec: the characters a `strftime` format expands to; a
conversion specifier is replaced, any other character is copied. -/
def strftime_expand (tm : Tm) : List Char → Option (List Nat)
  | [] => some []
  | c :: rest =>
    if c = '%' then
      match rest with
      | [] => none
      | spec :: rest2 =>
        match strftime_conversion spec tm, strftime_expand tm rest2 with
        | some a, some b => some (a ++ b)
        | _, _ => none
    else
      match strftime_expand tm rest with
      | some b => some (c.toNat :: b)
      | none => none

/-- Modelled from the spec: the call `strftime(s, maxsize, format, tm)` of the
C library.  The result is the bytes written to `s`, the expansion followed by
the terminating zero, when they number at most `maxsize`; otherwise the
contents of `s` are indeterminate (`none`). -/
def strftime (maxsize : Nat) (format : String) (tm : Tm) : Option (List Nat) :=
  match strftime_expand tm format.toList with
  | some out => if out.length + 1 ≤ maxsize then some (out ++ [0]) else none
  | none => none

/-! ## `main.c` -/

/-- The constant `NUMBER_OF_VRAM_BANKS_TO_GENERATE` of `main.c`. -/
def NUMBER_OF_VRAM_BANKS_TO_GENERATE : Nat := 1

/-- The table `POSITIONS`, in its `PBL_ROUND` variant when `round` is true. -/
def POSITIONS (round : Bool) : List (Int × Int) :=
  if round then
    [(5, 2), (12, 2), (5, 12), (12, 12), (7, 10), (14, 10)]
  else
    [(3, 2), (10, 2), (3, 12), (10, 12), (5, 10), (12, 10)]

/-- The entry `POSITIONS[k]`, for the constant indices 0 to 5 that `update_time` uses. -/
def position (round : Bool) (k : Nat) : Int × Int :=
  (POSITIONS round).getD k (0, 0)

/-- The function `load_tilesheet`; `res_size` is what `resource_size` returns
for the tilesheet.  `tiles_to_load` is a `uint16_t`, so the quotient is reduced
modulo `2 ^ 16` on assignment; the three offsets are zero.  Division by a zero
`GBC_TILE_NUM_BYTES` has no result. -/
def load_tilesheet (cfg : Config) (res_size : Nat) (g : GBC_Graphics) : Option GBC_Graphics :=
  if cfg.GBC_TILE_NUM_BYTES = 0 then none
  else
    let tiles_to_load : Nat := (res_size / cfg.GBC_TILE_NUM_BYTES) % 2 ^ 16
    let tilesheet_start_offset : Nat := 0
    let vram_start_offset : Nat := 0
    let vram_bank : Nat := 0
    some (GBC_Graphics_load_from_tilesheet_into_vram g ResourceId.RESOURCE_ID_DATA_DOT_TILESHEET
      tilesheet_start_offset tiles_to_load vram_start_offset vram_bank)

/-- The function `create_palettes`: palette 0, with the colour constants of the platform. -/
def create_palettes (cfg : Config) (g : GBC_Graphics) : GBC_Graphics :=
  if cfg.PBL_COLOR then
    GBC_Graphics_set_bg_palette g 0 Color.GColorBlackARGB8 Color.GColorWhiteARGB8
      Color.GColorWhiteARGB8 Color.GColorWhiteARGB8
  else
    GBC_Graphics_set_bg_palette g 0 Color.GBC_COLOR_BLACK Color.GBC_COLOR_WHITE
      Color.GBC_COLOR_WHITE Color.GBC_COLOR_WHITE

/-- The function `draw_number`: the glyph `NUMBERS[number]` is read at
`x + y * NUMBER_WIDTH` while `x` runs over the columns in the outer loop and
`y` over the rows in the inner loop; each read is written to cell
`(x + start_x, y + start_y)`.  There is no check on `number`: a read outside
the table has no result.  The sums `x + start_x` and `y + start_y` are taken in
`Int`; they are the sums the C code computes in `int` whenever those do not
overflow, which is so at the anchors of `POSITIONS` and at every anchor whose
footprint lies in a tilemap of at most 255 by 255 cells.  Properties that name
the coordinates written are stated for such anchors only. -/
def draw_number (cfg : Config) (number start_x start_y : Int) (g : GBC_Graphics) :
    Option GBC_Graphics :=
  match (if 0 ≤ number then cfg.NUMBERS[number.toNat]? else none) with
  | none => none
  | some number_pixels =>
    (List.range cfg.NUMBER_WIDTH).foldlM (fun g x =>
      (List.range cfg.NUMBER_HEIGHT).foldlM (fun g y =>
        match number_pixels[x + y * cfg.NUMBER_WIDTH]? with
        | none => none
        | some tile => some (GBC_Graphics_bg_set_tile g (x + start_x) (y + start_y) tile)) g) g

/-- The function `draw_number_from_char`: the character code minus the code of `'0'`. -/
def draw_number_from_char (cfg : Config) (number : Nat) (start_x start_y : Int)
    (g : GBC_Graphics) : Option GBC_Graphics :=
  draw_number cfg ((number : Int) - ('0'.toNat : Int)) start_x start_y g

/-- The function `draw_dot`: tile 1 on one cell. -/
def draw_dot (x y : Int) (g : GBC_Graphics) : GBC_Graphics :=
  GBC_Graphics_bg_set_tile g x y 1

/-- The function `draw_blank`: tile 0 on one cell. -/
def draw_blank (x y : Int) (g : GBC_Graphics) : GBC_Graphics :=
  GBC_Graphics_bg_set_tile g x y 0

/-- The loop `for (uint8_t i = ...; i < bound; i++) body`.  The counter is
eight bits wide and wraps to 0 after 255, so for a bound above 255 the loop
does not end; `fuel` bounds the number of tests of the loop condition. -/
def for_uint8 {σ : Type} (bound : Nat) (body : Nat → σ → Option σ) :
    Nat → Nat → σ → Option σ
  | 0, _, _ => none
  | fuel + 1, i, s =>
    if i < bound then
      match body i s with
      | none => none
      | some s1 => for_uint8 bound body fuel ((i + 1) % 256) s1
    else some s

/-- The function `generate_background`: rows in the outer loop, columns in the
inner loop, both with `uint8_t` counters; tile 0 and then palette 0 on each
cell; under `PBL_ROUND` the background is then moved by (-2, -6). -/
def generate_background (cfg : Config) (fuel : Nat) (g : GBC_Graphics) : Option GBC_Graphics :=
  match for_uint8 cfg.GBC_TILEMAP_HEIGHT (fun y g =>
      for_uint8 cfg.GBC_TILEMAP_WIDTH (fun x g =>
        some (GBC_Graphics_bg_set_tile_palette (GBC_Graphics_bg_set_tile g x y 0) x y 0))
        fuel 0 g) fuel 0 g with
  | none => none
  | some g1 => some (if cfg.PBL_ROUND then GBC_Graphics_bg_move g1 (-2) (-6) else g1)

/-- The function `update_time`.  The clock reading `tick_time` (from `time` and
`localtime`) and the preference `clock_is_24h_style` are arguments.
`s_buffer` is the eight-byte buffer as `strftime` leaves it; a byte that this
call did not write is not read (`none`). -/
def update_time (cfg : Config) (clock_is_24h_style : Bool) (tick_time : Tm)
    (g : GBC_Graphics) : Option GBC_Graphics := do
  let s_buffer ← strftime 8 (if clock_is_24h_style then "%H%M" else "%I%M") tick_time
  let c0 ← s_buffer[0]?
  let g ← draw_number_from_char cfg c0 (position cfg.PBL_ROUND 0).1 (position cfg.PBL_ROUND 0).2 g
  let c1 ← s_buffer[1]?
  let g ← draw_number_from_char cfg c1 (position cfg.PBL_ROUND 1).1 (position cfg.PBL_ROUND 1).2 g
  let c2 ← s_buffer[2]?
  let g ← draw_number_from_char cfg c2 (position cfg.PBL_ROUND 2).1 (position cfg.PBL_ROUND 2).2 g
  let c3 ← s_buffer[3]?
  let g ← draw_number_from_char cfg c3 (position cfg.PBL_ROUND 3).1 (position cfg.PBL_ROUND 3).2 g
  let g := draw_dot (position cfg.PBL_ROUND 4).1 (position cfg.PBL_ROUND 4).2 g
  let g := draw_dot (position cfg.PBL_ROUND 5).1 (position cfg.PBL_ROUND 5).2 g
  pure g

/-- The function `tick_handler`: its two C arguments are ignored and
`update_time` reads the time afresh; `now` is that reading. -/
def tick_handler (cfg : Config) (clock_is_24h_style : Bool) (now : Tm) (g : GBC_Graphics) :
    Option GBC_Graphics :=
  update_time cfg clock_is_24h_style now g

/-- The function `hide_window_layer`: the overlay layer goes down by the screen height. -/
def hide_window_layer (g : GBC_Graphics) : GBC_Graphics :=
  GBC_Graphics_window_set_offset_y g (GBC_Graphics_get_screen_height g)

/-- The function `window_load`.  `fresh` is the memory of the context about to
be constructed, `res_size` the size of the tilesheet resource, and the clock
reading and preference are those `update_time` sees. -/
def window_load (cfg : Config) (fuel : Nat) (res_size : Nat) (clock_is_24h_style : Bool)
    (tick_time : Tm) (fresh : GBC_Graphics) : Option GBC_Graphics := do
  let g := GBC_Graphics_ctor fresh NUMBER_OF_VRAM_BANKS_TO_GENERATE
  let g ← load_tilesheet cfg res_size g
  let g := create_palettes cfg g
  let g ← generate_background cfg fuel g
  let g := hide_window_layer g
  let g ← update_time cfg clock_is_24h_style tick_time g
  pure (GBC_Graphics_render g)

/-- A run of minute ticks: `tick_handler` once per entry, each with the
preference and clock reading of its moment. -/
def run_ticks (cfg : Config) : List (Bool × Tm) → GBC_Graphics → Option GBC_Graphics
  | [], g => some g
  | (style, now) :: rest, g =>
    match tick_handler cfg style now g with
    | none => none
    | some g1 => run_ticks cfg rest g1

/-! ## Recorded calls and what they do -/

/-- The effect of a recorded call on an existing context.  Every case is the
library function of that name; a constructor call, which `main.c` makes once
and before any other call, is recorded here like the others. -/
def perform (c : GfxCall) (g : GBC_Graphics) : GBC_Graphics :=
  match c with
  | GfxCall.ctor n => { g with vram_banks := n, calls := g.calls ++ [GfxCall.ctor n] }
  | GfxCall.load_from_tilesheet_into_vram r a b c d =>
    GBC_Graphics_load_from_tilesheet_into_vram g r a b c d
  | GfxCall.set_bg_palette p c0 c1 c2 c3 => GBC_Graphics_set_bg_palette g p c0 c1 c2 c3
  | GfxCall.bg_set_tile x y t => GBC_Graphics_bg_set_tile g x y t
  | GfxCall.bg_set_tile_palette x y p => GBC_Graphics_bg_set_tile_palette g x y p
  | GfxCall.bg_move dx dy => GBC_Graphics_bg_move g dx dy
  | GfxCall.window_set_offset_y o => GBC_Graphics_window_set_offset_y g o
  | GfxCall.render => GBC_Graphics_render g

/-- The calls of a list performed one after the other. -/
def replay (cs : List GfxCall) (g : GBC_Graphics) : GBC_Graphics :=
  cs.foldl (fun g c => perform c g) g

/-- The tile writes among a list of calls: cell and tile index. -/
def tile_writes : List GfxCall → List (Int × Int × Nat)
  | [] => []
  | GfxCall.bg_set_tile x y t :: cs => (x, y, t) :: tile_writes cs
  | _ :: cs => tile_writes cs

/-- The tile-palette writes among a list of calls: cell and palette. -/
def palette_writes : List GfxCall → List (Int × Int × Nat)
  | [] => []
  | GfxCall.bg_set_tile_palette x y p :: cs => (x, y, p) :: palette_writes cs
  | _ :: cs => palette_writes cs

/-- The cells a list of writes touches, one entry per write. -/
def cells (ws : List (Int × Int × Nat)) : List (Int × Int) :=
  ws.map (fun w => (w.1, w.2.1))

/-- The value the last write to cell `(cx, cy)` in the list stores, if any write
goes there. -/
def last_write (cx cy : Int) : List (Int × Int × Nat) → Option Nat
  | [] => none
  | w :: ws =>
    match last_write cx cy ws with
    | some v => some v
    | none => if cx = w.1 ∧ cy = w.2.1 then some w.2.2 else none

/-- The calls `draw_number` makes for the glyph `px` at `(sx, sy)`: column by
column, top to bottom within a column. -/
def digit_calls (W H : Nat) (px : List Nat) (sx sy : Int) : List GfxCall :=
  (List.range W).flatMap (fun (x : Nat) =>
    (List.range H).map (fun (y : Nat) =>
      GfxCall.bg_set_tile ((x : Int) + sx) ((y : Int) + sy) (List.getD px (x + y * W) 0)))

/-- The calls of the two loops of `generate_background`: row by row, tile then
palette on each cell. -/
def clear_calls (TW TH : Nat) : List GfxCall :=
  (List.range TH).flatMap (fun (y : Nat) =>
    (List.range TW).flatMap (fun (x : Nat) =>
      [GfxCall.bg_set_tile (x : Int) (y : Int) 0, GfxCall.bg_set_tile_palette (x : Int) (y : Int) 0]))

/-- The cell `(cx, cy)` lies in the `W` by `H` rectangle whose top-left cell is `a`. -/
def in_rect (W H : Nat) (a : Int × Int) (cx cy : Int) : Prop :=
  a.1 ≤ cx ∧ cx < a.1 + W ∧ a.2 ≤ cy ∧ cy < a.2 + H

instance (W H : Nat) (a : Int × Int) (cx cy : Int) : Decidable (in_rect W H a cx cy) := by
  unfold in_rect; infer_instance

/-- The glyph table has ten glyphs of `NUMBER_WIDTH * NUMBER_HEIGHT` entries each. -/
def glyphs_ok (cfg : Config) : Prop :=
  cfg.NUMBERS.length = 10 ∧ ∀ px ∈ cfg.NUMBERS, px.length = cfg.NUMBER_WIDTH * cfg.NUMBER_HEIGHT

instance (cfg : Config) : Decidable (glyphs_ok cfg) := by
  unfold glyphs_ok; infer_instance

/-- The glyph of digit `d`: the row `NUMBERS[d]`. -/
def glyph (cfg : Config) (d : Nat) : List Nat :=
  cfg.NUMBERS.getD d []

/-- The format `update_time` passes to `strftime`. -/
def time_format (clock_is_24h_style : Bool) : String :=
  if clock_is_24h_style then "%H%M" else "%I%M"

/-- The digit value `s_buffer[k] - '0'` that `update_time` obtains for position
`k` of the formatted time (0 when the format has no result). -/
def formatted_digit (clock_is_24h_style : Bool) (tick_time : Tm) (k : Nat) : Nat :=
  match strftime 8 (time_format clock_is_24h_style) tick_time with
  | some s_buffer => s_buffer.getD k 0 - '0'.toNat
  | none => 0

/-- The calls of `update_time` when it draws the digits `d0 d1 d2 d3`: the four
glyphs at positions 0 to 3, then the dot tile at positions 4 and 5. -/
def update_calls (cfg : Config) (d0 d1 d2 d3 : Nat) : List GfxCall :=
  digit_calls cfg.NUMBER_WIDTH cfg.NUMBER_HEIGHT (glyph cfg d0)
      (position cfg.PBL_ROUND 0).1 (position cfg.PBL_ROUND 0).2
    ++ digit_calls cfg.NUMBER_WIDTH cfg.NUMBER_HEIGHT (glyph cfg d1)
      (position cfg.PBL_ROUND 1).1 (position cfg.PBL_ROUND 1).2
    ++ digit_calls cfg.NUMBER_WIDTH cfg.NUMBER_HEIGHT (glyph cfg d2)
      (position cfg.PBL_ROUND 2).1 (position cfg.PBL_ROUND 2).2
    ++ digit_calls cfg.NUMBER_WIDTH cfg.NUMBER_HEIGHT (glyph cfg d3)
      (position cfg.PBL_ROUND 3).1 (position cfg.PBL_ROUND 3).2
    ++ [GfxCall.bg_set_tile (position cfg.PBL_ROUND 4).1 (position cfg.PBL_ROUND 4).2 1,
        GfxCall.bg_set_tile (position cfg.PBL_ROUND 5).1 (position cfg.PBL_ROUND 5).2 1]

/-- The hour `update_time` shows: the hour itself with the 24-hour preference,
the hour of the 12-hour clock without. -/
def shown_hour (clock_is_24h_style : Bool) (tick_time : Tm) : Nat :=
  if clock_is_24h_style then tick_time.tm_hour else hour_12 tick_time.tm_hour

/-- The cell `(cx, cy)` lies in one of the six footprints of the face: the four
`NUMBER_WIDTH` by `NUMBER_HEIGHT` digit rectangles at positions 0 to 3, or one
of the two dot cells at positions 4 and 5. -/
def in_footprint (cfg : Config) (cx cy : Int) : Prop :=
  in_rect cfg.NUMBER_WIDTH cfg.NUMBER_HEIGHT (position cfg.PBL_ROUND 0) cx cy
    ∨ in_rect cfg.NUMBER_WIDTH cfg.NUMBER_HEIGHT (position cfg.PBL_ROUND 1) cx cy
    ∨ in_rect cfg.NUMBER_WIDTH cfg.NUMBER_HEIGHT (position cfg.PBL_ROUND 2) cx cy
    ∨ in_rect cfg.NUMBER_WIDTH cfg.NUMBER_HEIGHT (position cfg.PBL_ROUND 3) cx cy
    ∨ (cx = (position cfg.PBL_ROUND 4).1 ∧ cy = (position cfg.PBL_ROUND 4).2)
    ∨ (cx = (position cfg.PBL_ROUND 5).1 ∧ cy = (position cfg.PBL_ROUND 5).2)

instance (cfg : Config) (cx cy : Int) : Decidable (in_footprint cfg cx cy) := by
  unfold in_footprint; infer_instance

/-- Full coverage of a tilemap for the time shown: each cell of the digit
rectangle at position `k` (0 to 3) holds the entry `i + j * NUMBER_WIDTH` of the
glyph of the `k`-th formatted digit, the cells at positions 4 and 5 hold tile 1,
and every other cell of the tilemap holds tile 0. -/
def full_coverage (cfg : Config) (clock_is_24h_style : Bool) (tick_time : Tm)
    (tilemap : Int → Int → Nat) : Prop :=
  (∀ k i j : Nat, k < 4 → i < cfg.NUMBER_WIDTH → j < cfg.NUMBER_HEIGHT →
      (glyph cfg (formatted_digit clock_is_24h_style tick_time k))[i + j * cfg.NUMBER_WIDTH]?
        = some (tilemap ((position cfg.PBL_ROUND k).1 + i) ((position cfg.PBL_ROUND k).2 + j)))
    ∧ tilemap (position cfg.PBL_ROUND 4).1 (position cfg.PBL_ROUND 4).2 = 1
    ∧ tilemap (position cfg.PBL_ROUND 5).1 (position cfg.PBL_ROUND 5).2 = 1
    ∧ ∀ cx cy : Int, 0 ≤ cx → cx < cfg.GBC_TILEMAP_WIDTH → 0 ≤ cy → cy < cfg.GBC_TILEMAP_HEIGHT →
        ¬ in_footprint cfg cx cy → tilemap cx cy = 0

/-! ## Sample data -/

/-- A glyph table of the shape the face uses, ten glyphs of 5 by 8 tiles, with
tile indices from 2 upwards and distinct from glyph to glyph. -/
def sample_NUMBERS : List (List Nat) :=
  (List.range 10).map (fun d => (List.range 40).map (fun i => 2 + (7 * d + i) % 200))

/-- A rectangular colour build with the sample glyph table, a 32 by 32 tilemap
and 16 bytes per tile. -/
def sample_cfg : Config :=
  { PBL_ROUND := false, PBL_COLOR := true, NUMBER_WIDTH := 5, NUMBER_HEIGHT := 8,
    NUMBERS := sample_NUMBERS, GBC_TILEMAP_WIDTH := 32, GBC_TILEMAP_HEIGHT := 32,
    GBC_TILE_NUM_BYTES := 16 }

/-- A graphics context with leftover contents: tile 7 and tile-palette 3 on
every cell, no palette installed, no call recorded. -/
def stale_graphics : GBC_Graphics :=
  { vram_banks := 0, bg_palettes := fun _ => none, bg_tilemap := fun _ _ => 7,
    bg_attrmap := fun _ _ => 3, bg_scroll_x := 0, bg_scroll_y := 0, window_offset_y := 0,
    screen_height := 168, calls := [] }

/-! ## Replaying recorded calls -/

theorem replay_nil (g : GBC_Graphics) : replay [] g = g := rfl

theorem replay_cons (c : GfxCall) (cs : List GfxCall) (g : GBC_Graphics) :
    replay (c :: cs) g = replay cs (perform c g) := rfl

theorem replay_append (as bs : List GfxCall) (g : GBC_Graphics) :
    replay (as ++ bs) g = replay bs (replay as g) := by
  simp [replay, List.foldl_append]

theorem perform_calls (c : GfxCall) (g : GBC_Graphics) :
    (perform c g).calls = g.calls ++ [c] := by
  cases c <;> rfl

theorem replay_calls (cs : List GfxCall) (g : GBC_Graphics) :
    (replay cs g).calls = g.calls ++ cs := by
  induction cs generalizing g with
  | nil => simp [replay_nil]
  | cons c cs ih => rw [replay_cons, ih, perform_calls]; simp

theorem replay_screen_height (cs : List GfxCall) (g : GBC_Graphics) :
    (replay cs g).screen_height = g.screen_height := by
  induction cs generalizing g with
  | nil => rfl
  | cons c cs ih => rw [replay_cons, ih]; cases c <;> rfl

theorem replay_bg_tilemap (cs : List GfxCall) (g : GBC_Graphics) (cx cy : Int) :
    (replay cs g).bg_tilemap cx cy
      = (last_write cx cy (tile_writes cs)).getD (g.bg_tilemap cx cy) := by
  induction cs generalizing g with
  | nil => rfl
  | cons c cs ih =>
    rw [replay_cons, ih]
    cases c <;> simp only [tile_writes, perform] <;> try rfl
    case bg_set_tile x y t =>
      simp only [last_write]
      cases last_write cx cy (tile_writes cs) with
      | some v => rfl
      | none =>
        by_cases h : cx = x ∧ cy = y <;> simp [GBC_Graphics_bg_set_tile, h]

theorem replay_bg_attrmap (cs : List GfxCall) (g : GBC_Graphics) (cx cy : Int) :
    (replay cs g).bg_attrmap cx cy
      = (last_write cx cy (palette_writes cs)).getD (g.bg_attrmap cx cy) := by
  induction cs generalizing g with
  | nil => rfl
  | cons c cs ih =>
    rw [replay_cons, ih]
    cases c <;> simp only [palette_writes, perform] <;> try rfl
    case bg_set_tile_palette x y t =>
      simp only [last_write]
      cases last_write cx cy (palette_writes cs) with
      | some v => rfl
      | none =>
        by_cases h : cx = x ∧ cy = y <;> simp [GBC_Graphics_bg_set_tile_palette, h]

theorem tile_writes_append (as bs : List GfxCall) :
    tile_writes (as ++ bs) = tile_writes as ++ tile_writes bs := by
  induction as with
  | nil => rfl
  | cons c cs ih => cases c <;> simp [tile_writes, ih]

theorem palette_writes_append (as bs : List GfxCall) :
    palette_writes (as ++ bs) = palette_writes as ++ palette_writes bs := by
  induction as with
  | nil => rfl
  | cons c cs ih => cases c <;> simp [palette_writes, ih]

theorem mem_tile_writes (cs : List GfxCall) (x y : Int) (t : Nat) :
    (x, y, t) ∈ tile_writes cs ↔ GfxCall.bg_set_tile x y t ∈ cs := by
  induction cs with
  | nil => simp [tile_writes]
  | cons c cs ih => cases c <;> simp [tile_writes, ih]

theorem mem_palette_writes (cs : List GfxCall) (x y : Int) (t : Nat) :
    (x, y, t) ∈ palette_writes cs ↔ GfxCall.bg_set_tile_palette x y t ∈ cs := by
  induction cs with
  | nil => simp [palette_writes]
  | cons c cs ih => cases c <;> simp [palette_writes, ih]

/-- No write goes to a cell exactly when the cell is not among the cells written. -/
theorem last_write_eq_none (cx cy : Int) (ws : List (Int × Int × Nat)) :
    last_write cx cy ws = none ↔ (cx, cy) ∉ cells ws := by
  induction ws with
  | nil => simp [last_write, cells]
  | cons w ws ih =>
    have hc : cells (w :: ws) = (w.1, w.2.1) :: cells ws := rfl
    rw [hc]
    cases h : last_write cx cy ws with
    | some v =>
      have hin : (cx, cy) ∈ cells ws := by
        by_contra hn
        rw [ih.mpr hn] at h
        cases h
      constructor
      · intro h2
        simp [last_write, h] at h2
      · intro h2
        exact absurd (List.mem_cons_of_mem _ hin) h2
    | none =>
      have hnot : (cx, cy) ∉ cells ws := ih.mp h
      by_cases hw : cx = w.1 ∧ cy = w.2.1
      · rw [last_write, h]
        simp [hw]
      · have hne : (cx, cy) ≠ (w.1, w.2.1) := by
          intro he
          simp only [Prod.mk.injEq] at he
          exact hw he
        rw [last_write, h]
        simp [hw, hnot, hne]

/-- When every write to a cell stores the same value, that value is the last one written. -/
theorem last_write_eq_some (cx cy : Int) (v : Nat) (ws : List (Int × Int × Nat))
    (hmem : (cx, cy) ∈ cells ws)
    (hval : ∀ w ∈ ws, w.1 = cx → w.2.1 = cy → w.2.2 = v) :
    last_write cx cy ws = some v := by
  induction ws with
  | nil => simp [cells] at hmem
  | cons w ws ih =>
    simp only [last_write]
    by_cases hin : (cx, cy) ∈ cells ws
    · rw [ih hin (fun u hu => hval u (List.mem_cons_of_mem _ hu))]
    · rw [(last_write_eq_none cx cy ws).mpr hin]
      simp only [cells, List.map_cons, List.mem_cons] at hmem
      rcases hmem with h | h
      · simp only [Prod.mk.injEq] at h
        simp [h.1, h.2, hval w (List.mem_cons_self _ _) h.1.symm h.2.symm]
      · exact absurd h hin

/-! ## The loops of `draw_number` -/

theorem glyph_index_lt (W H x y : Nat) (hx : x < W) (hy : y < H) : x + y * W < W * H := by
  have h1 : y * W + W ≤ H * W := by
    have : (y + 1) * W ≤ H * W := Nat.mul_le_mul_right W hy
    rwa [Nat.succ_mul] at this
  rw [Nat.mul_comm W H]
  omega

/-- The inner loop of `draw_number` over the first `n` rows of column `x`. -/
theorem draw_number_column (W : Nat) (px : List Nat) (sx sy : Int) (x n : Nat)
    (hpx : ∀ y, y < n → x + y * W < px.length) (g : GBC_Graphics) :
    (List.range n).foldlM (fun g y =>
        match px[x + y * W]? with
        | none => none
        | some tile => some (GBC_Graphics_bg_set_tile g ((x : Int) + sx) ((y : Int) + sy) tile)) g
      = some (replay ((List.range n).map (fun (y : Nat) =>
          GfxCall.bg_set_tile ((x : Int) + sx) ((y : Int) + sy) (List.getD px (x + y * W) 0))) g) := by
  induction n with
  | zero => rfl
  | succ n ih =>
    rw [List.range_succ, List.foldlM_append, ih (fun y hy => hpx y (Nat.lt_succ_of_lt hy)),
      List.map_append, replay_append]
    have hlt : x + n * W < px.length := hpx n (Nat.lt_succ_self n)
    simp [List.getElem?_eq_getElem hlt, List.getD_eq_getElem px 0 hlt, replay, perform]

/-- The two loops of `draw_number` over the first `m` columns. -/
theorem draw_number_columns (W H : Nat) (px : List Nat) (sx sy : Int) (m : Nat)
    (hpx : ∀ x y, x < m → y < H → x + y * W < px.length) (g : GBC_Graphics) :
    (List.range m).foldlM (fun g x =>
      (List.range H).foldlM (fun g y =>
        match px[x + y * W]? with
        | none => none
        | some tile => some (GBC_Graphics_bg_set_tile g ((x : Int) + sx) ((y : Int) + sy) tile)) g) g
      = some (replay ((List.range m).flatMap (fun (x : Nat) =>
          (List.range H).map (fun (y : Nat) =>
            GfxCall.bg_set_tile ((x : Int) + sx) ((y : Int) + sy)
              (List.getD px (x + y * W) 0)))) g) := by
  induction m with
  | zero => rfl
  | succ m ih =>
    rw [List.range_succ, List.foldlM_append, ih (fun x y hx hy => hpx x y (Nat.lt_succ_of_lt hx) hy),
      List.flatMap_append, replay_append]
    simp [draw_number_column W px sx sy m H (fun y hy => hpx m y (Nat.lt_succ_self m) hy)]

/-- With a glyph table of the declared shape, `draw_number` on a digit performs
exactly the calls of `digit_calls`. -/
theorem draw_number_eq (cfg : Config) (hok : glyphs_ok cfg) (d : Nat) (hd : d < 10)
    (sx sy : Int) (g : GBC_Graphics) :
    draw_number cfg (d : Int) sx sy g
      = some (replay (digit_calls cfg.NUMBER_WIDTH cfg.NUMBER_HEIGHT (glyph cfg d) sx sy) g) := by
  have hlen : d < cfg.NUMBERS.length := by rw [hok.1]; exact hd
  have hrow : cfg.NUMBERS[d]? = some (glyph cfg d) := by
    rw [List.getElem?_eq_getElem hlen, glyph, List.getD_eq_getElem _ _ hlen]
  have hsize : (glyph cfg d).length = cfg.NUMBER_WIDTH * cfg.NUMBER_HEIGHT := by
    apply hok.2
    rw [glyph, List.getD_eq_getElem _ _ hlen]
    exact List.getElem_mem _
  unfold draw_number
  simp only [Int.toNat_ofNat, Int.ofNat_nonneg, if_true, hrow]
  exact draw_number_columns cfg.NUMBER_WIDTH cfg.NUMBER_HEIGHT (glyph cfg d) sx sy
    cfg.NUMBER_WIDTH (fun x y hx hy => by rw [hsize]; exact glyph_index_lt _ _ x y hx hy) g

/-- A number outside the table gives `draw_number` no result: nothing in it checks the range. -/
theorem draw_number_out_of_range (cfg : Config) (number sx sy : Int) (g : GBC_Graphics)
    (h : number < 0 ∨ (cfg.NUMBERS.length : Int) ≤ number) :
    draw_number cfg number sx sy g = none := by
  unfold draw_number
  rcases h with h | h
  · simp [not_le.mpr h]
  · have h0 : 0 ≤ number := le_trans (Int.ofNat_nonneg _) h
    have h1 : cfg.NUMBERS.length ≤ number.toNat := by omega
    simp [h0, List.getElem?_eq_none h1]

/-! ## The loops of `generate_background` -/

/-- A `uint8_t` loop whose bound is at most 255 ends, given fuel for one test
more than the iterations left, and performs the calls of the iterations in order. -/
theorem for_uint8_eq (bound : Nat) (hb : bound ≤ 255)
    (body : Nat → GBC_Graphics → Option GBC_Graphics) (f : Nat → List GfxCall)
    (hbody : ∀ j g, j < bound → body j g = some (replay (f j) g))
    (fuel i : Nat) (hi : i ≤ bound) (hfuel : bound - i < fuel) (g : GBC_Graphics) :
    for_uint8 bound body fuel i g
      = some (replay ((List.range' i (bound - i)).flatMap f) g) := by
  induction fuel generalizing i g with
  | zero => omega
  | succ fuel ih =>
    unfold for_uint8
    by_cases hlt : i < bound
    · have hmod : (i + 1) % 256 = i + 1 := Nat.mod_eq_of_lt (by omega)
      have hsub : bound - i = (bound - (i + 1)) + 1 := by omega
      rw [if_pos hlt, hbody i g hlt]
      simp only [hmod]
      rw [ih (i + 1) (by omega) (by omega), hsub, List.range'_succ, List.flatMap_cons,
        replay_append]
    · have hz : bound - i = 0 := by omega
      rw [if_neg hlt, hz]
      rfl

/-- With both tilemap dimensions at most 255 and fuel above them,
`generate_background` ends and performs the clearing calls, followed under
`PBL_ROUND` by the background move. -/
theorem generate_background_eq (cfg : Config) (hw : cfg.GBC_TILEMAP_WIDTH ≤ 255)
    (hh : cfg.GBC_TILEMAP_HEIGHT ≤ 255) (fuel : Nat) (hfw : cfg.GBC_TILEMAP_WIDTH < fuel)
    (hfh : cfg.GBC_TILEMAP_HEIGHT < fuel) (g : GBC_Graphics) :
    generate_background cfg fuel g
      = some (replay (clear_calls cfg.GBC_TILEMAP_WIDTH cfg.GBC_TILEMAP_HEIGHT
          ++ (if cfg.PBL_ROUND then [GfxCall.bg_move (-2) (-6)] else [])) g) := by
  unfold generate_background
  have hrow : ∀ (y : Nat) (g : GBC_Graphics), y < cfg.GBC_TILEMAP_HEIGHT →
      for_uint8 cfg.GBC_TILEMAP_WIDTH (fun x g =>
        some (GBC_Graphics_bg_set_tile_palette (GBC_Graphics_bg_set_tile g x y 0) x y 0)) fuel 0 g
      = some (replay ((List.range cfg.GBC_TILEMAP_WIDTH).flatMap (fun (x : Nat) =>
          [GfxCall.bg_set_tile (x : Int) (y : Int) 0,
            GfxCall.bg_set_tile_palette (x : Int) (y : Int) 0])) g) := by
    intro y g _
    have hloop := for_uint8_eq cfg.GBC_TILEMAP_WIDTH hw (fun x g =>
        some (GBC_Graphics_bg_set_tile_palette (GBC_Graphics_bg_set_tile g x y 0) x y 0))
      (fun (x : Nat) => [GfxCall.bg_set_tile (x : Int) (y : Int) 0,
        GfxCall.bg_set_tile_palette (x : Int) (y : Int) 0])
      (fun j g _ => rfl) fuel 0 (Nat.zero_le _) (by simpa using hfw) g
    rw [hloop]
    simp [List.range_eq_range']
  rw [for_uint8_eq cfg.GBC_TILEMAP_HEIGHT hh _ _ hrow fuel 0 (Nat.zero_le _) (by simpa using hfh) g]
  simp only [Nat.sub_zero, ← List.range_eq_range', replay_append, clear_calls]
  cases cfg.PBL_ROUND <;> rfl

theorem mem_clear_calls_tile (TW TH : Nat) (x y : Int) (t : Nat) :
    GfxCall.bg_set_tile x y t ∈ clear_calls TW TH
      ↔ 0 ≤ x ∧ x < TW ∧ 0 ≤ y ∧ y < TH ∧ t = 0 := by
  simp only [clear_calls, List.mem_flatMap, List.mem_range, List.mem_cons, List.mem_singleton,
    GfxCall.bg_set_tile.injEq, false_or, or_false, reduceCtorEq, List.not_mem_nil]
  constructor
  · rintro ⟨b, hb, a, ha, rfl, rfl, rfl⟩
    omega
  · rintro ⟨h1, h2, h3, h4, rfl⟩
    exact ⟨y.toNat, by omega, x.toNat, by omega, by omega, by omega, rfl⟩

theorem mem_clear_calls_palette (TW TH : Nat) (x y : Int) (p : Nat) :
    GfxCall.bg_set_tile_palette x y p ∈ clear_calls TW TH
      ↔ 0 ≤ x ∧ x < TW ∧ 0 ≤ y ∧ y < TH ∧ p = 0 := by
  simp only [clear_calls, List.mem_flatMap, List.mem_range, List.mem_cons, List.mem_singleton,
    GfxCall.bg_set_tile_palette.injEq, false_or, or_false, reduceCtorEq, List.not_mem_nil]
  constructor
  · rintro ⟨b, hb, a, ha, rfl, rfl, rfl⟩
    omega
  · rintro ⟨h1, h2, h3, h4, rfl⟩
    exact ⟨y.toNat, by omega, x.toNat, by omega, by omega, by omega, rfl⟩

theorem mem_digit_calls (W H : Nat) (px : List Nat) (sx sy x y : Int) (t : Nat) :
    GfxCall.bg_set_tile x y t ∈ digit_calls W H px sx sy
      ↔ in_rect W H (sx, sy) x y
        ∧ t = List.getD px ((x - sx).toNat + (y - sy).toNat * W) 0 := by
  simp only [digit_calls, List.mem_flatMap, List.mem_map, List.mem_range,
    GfxCall.bg_set_tile.injEq, in_rect]
  constructor
  · rintro ⟨a, ha, b, hb, rfl, rfl, rfl⟩
    refine ⟨by omega, ?_⟩
    have h1 : ((a : Int) + sx - sx).toNat = a := by simp
    have h2 : ((b : Int) + sy - sy).toNat = b := by simp
    rw [h1, h2]
  · rintro ⟨⟨h1, h2, h3, h4⟩, rfl⟩
    exact ⟨(x - sx).toNat, by omega, (y - sy).toNat, by omega, by omega, by omega, rfl⟩

theorem digit_calls_tile_only (W H : Nat) (px : List Nat) (sx sy : Int) (c : GfxCall)
    (hc : c ∈ digit_calls W H px sx sy) : ∃ x y t, c = GfxCall.bg_set_tile x y t := by
  simp only [digit_calls, List.mem_flatMap, List.mem_map] at hc
  obtain ⟨a, _, b, _, rfl⟩ := hc
  exact ⟨_, _, _, rfl⟩

/-! ## Formatting the time -/

theorem hour_12_le (h : Nat) (hh : h ≤ 23) : 1 ≤ hour_12 h ∧ hour_12 h ≤ 12 := by
  unfold hour_12
  split_ifs <;> omega

/-- The buffer after `strftime` at a valid time: four digit characters and the terminator. -/
theorem strftime_time_format (style : Bool) (tm : Tm) (hh : tm.tm_hour ≤ 23)
    (hm : tm.tm_min ≤ 59) :
    strftime 8 (if style then "%H%M" else "%I%M") tm
      = some [48 + shown_hour style tm / 10, 48 + shown_hour style tm % 10,
          48 + tm.tm_min / 10, 48 + tm.tm_min % 10, 0] := by
  have h24 : "%H%M".toList = [Char.ofNat 37, Char.ofNat 72, Char.ofNat 37, Char.ofNat 77] := rfl
  have h12 : "%I%M".toList = [Char.ofNat 37, Char.ofNat 73, Char.ofNat 37, Char.ofNat 77] := rfl
  cases style
  · simp [strftime, strftime_expand, strftime_conversion, two_digits, shown_hour, h12, hh, hm]
  · simp [strftime, strftime_expand, strftime_conversion, two_digits, shown_hour, h24, hh, hm]

/-- The four digits `update_time` draws at a valid time: the decimal digits of
the shown hour and of the minute. -/
theorem formatted_digit_eq (style : Bool) (tm : Tm) (hh : tm.tm_hour ≤ 23) (hm : tm.tm_min ≤ 59) :
    formatted_digit style tm 0 = shown_hour style tm / 10
      ∧ formatted_digit style tm 1 = shown_hour style tm % 10
      ∧ formatted_digit style tm 2 = tm.tm_min / 10
      ∧ formatted_digit style tm 3 = tm.tm_min % 10 := by
  simp [formatted_digit, time_format, strftime_time_format style tm hh hm]

theorem shown_hour_le (style : Bool) (tm : Tm) (hh : tm.tm_hour ≤ 23) :
    shown_hour style tm ≤ 23 := by
  unfold shown_hour
  have := hour_12_le tm.tm_hour hh
  split_ifs <;> omega

theorem formatted_digit_lt (style : Bool) (tm : Tm) (hh : tm.tm_hour ≤ 23) (hm : tm.tm_min ≤ 59)
    (k : Nat) (hk : k < 4) : formatted_digit style tm k < 10 := by
  obtain ⟨h0, h1, h2, h3⟩ := formatted_digit_eq style tm hh hm
  have := shown_hour_le style tm hh
  have hcases : k = 0 ∨ k = 1 ∨ k = 2 ∨ k = 3 := by omega
  rcases hcases with rfl | rfl | rfl | rfl
  · rw [h0]; omega
  · rw [h1]; omega
  · rw [h2]; omega
  · rw [h3]; omega

theorem draw_number_from_char_digit (cfg : Config) (d : Nat) (sx sy : Int) (g : GBC_Graphics) :
    draw_number_from_char cfg (48 + d) sx sy g = draw_number cfg (d : Int) sx sy g := by
  unfold draw_number_from_char
  have h0 : ('0'.toNat : Int) = 48 := rfl
  rw [h0]
  congr 1
  push_cast
  ring

/-- At a valid time and with a glyph table of the declared shape, `update_time`
has a result and performs exactly the calls of `update_calls` for the formatted digits. -/
theorem update_time_eq (cfg : Config) (hok : glyphs_ok cfg) (style : Bool) (tm : Tm)
    (hh : tm.tm_hour ≤ 23) (hm : tm.tm_min ≤ 59) (g : GBC_Graphics) :
    update_time cfg style tm g
      = some (replay (update_calls cfg (formatted_digit style tm 0) (formatted_digit style tm 1)
          (formatted_digit style tm 2) (formatted_digit style tm 3)) g) := by
  obtain ⟨h0, h1, h2, h3⟩ := formatted_digit_eq style tm hh hm
  have l0 := formatted_digit_lt style tm hh hm 0 (by omega)
  have l1 := formatted_digit_lt style tm hh hm 1 (by omega)
  have l2 := formatted_digit_lt style tm hh hm 2 (by omega)
  have l3 := formatted_digit_lt style tm hh hm 3 (by omega)
  rw [h0] at l0
  rw [h1] at l1
  rw [h2] at l2
  rw [h3] at l3
  rw [h0, h1, h2, h3]
  unfold update_time
  rw [strftime_time_format style tm hh hm]
  simp only [Option.bind_eq_bind, Option.some_bind, List.getElem?_cons_zero,
    List.getElem?_cons_succ, draw_number_from_char_digit, draw_number_eq cfg hok _ l0,
    draw_number_eq cfg hok _ l1, draw_number_eq cfg hok _ l2, draw_number_eq cfg hok _ l3,
    Option.pure_def, update_calls, replay_append, draw_dot]
  rfl

/-! ## Cells written by the drawing calls -/

theorem mem_cells (ws : List (Int × Int × Nat)) (cx cy : Int) :
    (cx, cy) ∈ cells ws ↔ ∃ t, (cx, cy, t) ∈ ws := by
  simp only [cells, List.mem_map, Prod.mk.injEq, Prod.exists]
  constructor
  · rintro ⟨a, b, t, hm, rfl, rfl⟩
    exact ⟨t, hm⟩
  · rintro ⟨t, hm⟩
    exact ⟨cx, cy, t, hm, rfl, rfl⟩

theorem tile_writes_map (l : List Nat) (fx fy : Nat → Int) (ft : Nat → Nat) :
    tile_writes (l.map (fun n => GfxCall.bg_set_tile (fx n) (fy n) (ft n)))
      = l.map (fun n => (fx n, fy n, ft n)) := by
  induction l with
  | nil => rfl
  | cons a l ih => simp [tile_writes, ih]

theorem tile_writes_flatMap (l : List Nat) (F : Nat → List GfxCall) :
    tile_writes (l.flatMap F) = l.flatMap (fun n => tile_writes (F n)) := by
  induction l with
  | nil => rfl
  | cons a l ih => simp [List.flatMap_cons, tile_writes_append, ih]

/-- The cells `draw_number` writes, in the order it writes them; they do not depend on the glyph. -/
theorem cells_digit_calls (W H : Nat) (px : List Nat) (sx sy : Int) :
    cells (tile_writes (digit_calls W H px sx sy))
      = (List.product (List.range W) (List.range H)).map
          (fun p => ((p.1 : Int) + sx, (p.2 : Int) + sy)) := by
  unfold digit_calls cells
  rw [tile_writes_flatMap]
  simp only [tile_writes_map, List.product, List.map_flatMap, List.map_map]
  rfl

theorem cells_digit_calls_nodup (W H : Nat) (px : List Nat) (sx sy : Int) :
    (cells (tile_writes (digit_calls W H px sx sy))).Nodup := by
  rw [cells_digit_calls]
  refine List.Nodup.map ?_ (List.Nodup.product (List.nodup_range W) (List.nodup_range H))
  rintro ⟨a, b⟩ ⟨c, d⟩ h
  simp only [Prod.mk.injEq] at h ⊢
  omega

theorem length_flatMap_const (l : List Nat) (F : Nat → List GfxCall) (n : Nat)
    (h : ∀ a, (F a).length = n) : (l.flatMap F).length = l.length * n := by
  induction l with
  | nil => simp
  | cons a l ih => simp [List.flatMap_cons, h a, ih, Nat.succ_mul, Nat.add_comm]

theorem length_digit_calls (W H : Nat) (px : List Nat) (sx sy : Int) :
    (digit_calls W H px sx sy).length = W * H := by
  unfold digit_calls
  rw [length_flatMap_const _ _ H (fun a => by simp)]
  simp

theorem palette_writes_of_tile_only (cs : List GfxCall)
    (h : ∀ c ∈ cs, ∃ x y t, c = GfxCall.bg_set_tile x y t) : palette_writes cs = [] := by
  induction cs with
  | nil => rfl
  | cons c cs ih =>
    obtain ⟨x, y, t, rfl⟩ := h c (List.mem_cons_self _ _)
    simpa [palette_writes] using ih (fun c hc => h c (List.mem_cons_of_mem _ hc))

/-! ## Cells written by `update_time` -/

theorem mem_update_calls (cfg : Config) (d0 d1 d2 d3 : Nat) (x y : Int) (t : Nat) :
    GfxCall.bg_set_tile x y t ∈ update_calls cfg d0 d1 d2 d3 ↔
      (in_rect cfg.NUMBER_WIDTH cfg.NUMBER_HEIGHT (position cfg.PBL_ROUND 0) x y
          ∧ t = List.getD (glyph cfg d0) ((x - (position cfg.PBL_ROUND 0).1).toNat
                + (y - (position cfg.PBL_ROUND 0).2).toNat * cfg.NUMBER_WIDTH) 0)
        ∨ (in_rect cfg.NUMBER_WIDTH cfg.NUMBER_HEIGHT (position cfg.PBL_ROUND 1) x y
          ∧ t = List.getD (glyph cfg d1) ((x - (position cfg.PBL_ROUND 1).1).toNat
                + (y - (position cfg.PBL_ROUND 1).2).toNat * cfg.NUMBER_WIDTH) 0)
        ∨ (in_rect cfg.NUMBER_WIDTH cfg.NUMBER_HEIGHT (position cfg.PBL_ROUND 2) x y
          ∧ t = List.getD (glyph cfg d2) ((x - (position cfg.PBL_ROUND 2).1).toNat
                + (y - (position cfg.PBL_ROUND 2).2).toNat * cfg.NUMBER_WIDTH) 0)
        ∨ (in_rect cfg.NUMBER_WIDTH cfg.NUMBER_HEIGHT (position cfg.PBL_ROUND 3) x y
          ∧ t = List.getD (glyph cfg d3) ((x - (position cfg.PBL_ROUND 3).1).toNat
                + (y - (position cfg.PBL_ROUND 3).2).toNat * cfg.NUMBER_WIDTH) 0)
        ∨ (x = (position cfg.PBL_ROUND 4).1 ∧ y = (position cfg.PBL_ROUND 4).2 ∧ t = 1)
        ∨ (x = (position cfg.PBL_ROUND 5).1 ∧ y = (position cfg.PBL_ROUND 5).2 ∧ t = 1) := by
  simp only [update_calls, List.mem_append, mem_digit_calls, List.mem_cons, List.mem_singleton,
    GfxCall.bg_set_tile.injEq, List.not_mem_nil, or_false, or_assoc, Prod.mk.eta]

theorem update_calls_tile_only (cfg : Config) (d0 d1 d2 d3 : Nat) (c : GfxCall)
    (hc : c ∈ update_calls cfg d0 d1 d2 d3) : ∃ x y t, c = GfxCall.bg_set_tile x y t := by
  simp only [update_calls, List.mem_append, List.mem_cons, List.mem_singleton,
    List.not_mem_nil, or_false] at hc
  rcases hc with (((h | h) | h) | h) | h | h
  · exact digit_calls_tile_only _ _ _ _ _ c h
  · exact digit_calls_tile_only _ _ _ _ _ c h
  · exact digit_calls_tile_only _ _ _ _ _ c h
  · exact digit_calls_tile_only _ _ _ _ _ c h
  · exact ⟨_, _, _, h⟩
  · exact ⟨_, _, _, h⟩

/-- The cells `update_time` writes are those of the six footprints, whatever the digits. -/
theorem mem_cells_update_calls (cfg : Config) (d0 d1 d2 d3 : Nat) (cx cy : Int) :
    (cx, cy) ∈ cells (tile_writes (update_calls cfg d0 d1 d2 d3)) ↔ in_footprint cfg cx cy := by
  rw [mem_cells]
  simp only [mem_tile_writes, mem_update_calls, in_footprint]
  constructor
  · rintro ⟨t, h⟩
    rcases h with h | h | h | h | h | h
    · exact Or.inl h.1
    · exact Or.inr (Or.inl h.1)
    · exact Or.inr (Or.inr (Or.inl h.1))
    · exact Or.inr (Or.inr (Or.inr (Or.inl h.1)))
    · exact Or.inr (Or.inr (Or.inr (Or.inr (Or.inl ⟨h.1, h.2.1⟩))))
    · exact Or.inr (Or.inr (Or.inr (Or.inr (Or.inr ⟨h.1, h.2.1⟩))))
  · intro h
    rcases h with h | h | h | h | h | h
    · exact ⟨_, Or.inl ⟨h, rfl⟩⟩
    · exact ⟨_, Or.inr (Or.inl ⟨h, rfl⟩)⟩
    · exact ⟨_, Or.inr (Or.inr (Or.inl ⟨h, rfl⟩))⟩
    · exact ⟨_, Or.inr (Or.inr (Or.inr (Or.inl ⟨h, rfl⟩)))⟩
    · exact ⟨1, Or.inr (Or.inr (Or.inr (Or.inr (Or.inl ⟨h.1, h.2, rfl⟩))))⟩
    · exact ⟨1, Or.inr (Or.inr (Or.inr (Or.inr (Or.inr ⟨h.1, h.2, rfl⟩))))⟩

/-- Outside the six footprints `update_time` leaves the tilemap as it was. -/
theorem update_calls_outside (cfg : Config) (d0 d1 d2 d3 : Nat) (g : GBC_Graphics)
    (cx cy : Int) (h : ¬ in_footprint cfg cx cy) :
    (replay (update_calls cfg d0 d1 d2 d3) g).bg_tilemap cx cy = g.bg_tilemap cx cy := by
  rw [replay_bg_tilemap, (last_write_eq_none cx cy _).mpr
    (fun hm => h ((mem_cells_update_calls cfg d0 d1 d2 d3 cx cy).mp hm))]
  rfl

/-- Inside the six footprints the tilemap after `update_time` does not depend on the one before. -/
theorem update_calls_inside (cfg : Config) (d0 d1 d2 d3 : Nat) (g ga : GBC_Graphics)
    (cx cy : Int) (h : in_footprint cfg cx cy) :
    (replay (update_calls cfg d0 d1 d2 d3) g).bg_tilemap cx cy
      = (replay (update_calls cfg d0 d1 d2 d3) ga).bg_tilemap cx cy := by
  rw [replay_bg_tilemap, replay_bg_tilemap]
  cases hl : last_write cx cy (tile_writes (update_calls cfg d0 d1 d2 d3)) with
  | some v => rfl
  | none =>
    exact absurd ((mem_cells_update_calls cfg d0 d1 d2 d3 cx cy).mpr h)
      ((last_write_eq_none cx cy _).mp hl)

theorem position_values (r : Bool) :
    position r 0 = (if r then 5 else 3, 2) ∧ position r 1 = (if r then 12 else 10, 2)
      ∧ position r 2 = (if r then 5 else 3, 12) ∧ position r 3 = (if r then 12 else 10, 12)
      ∧ position r 4 = (if r then 7 else 5, 10) ∧ position r 5 = (if r then 14 else 12, 10) := by
  cases r <;> exact ⟨rfl, rfl, rfl, rfl, rfl, rfl⟩

/-! ## Full coverage -/

/-- A cell of a footprint holds after `update_time` the value that every write to it stores. -/
theorem update_calls_value (cfg : Config) (d0 d1 d2 d3 : Nat) (g : GBC_Graphics)
    (cx cy : Int) (v : Nat) (hin : in_footprint cfg cx cy)
    (hval : ∀ t, GfxCall.bg_set_tile cx cy t ∈ update_calls cfg d0 d1 d2 d3 → t = v) :
    (replay (update_calls cfg d0 d1 d2 d3) g).bg_tilemap cx cy = v := by
  have hlast : last_write cx cy (tile_writes (update_calls cfg d0 d1 d2 d3)) = some v := by
    apply last_write_eq_some
    · exact (mem_cells_update_calls cfg d0 d1 d2 d3 cx cy).mpr hin
    · rintro ⟨a, b, t⟩ hw ha hb
      simp only at ha hb
      subst ha hb
      exact hval t ((mem_tile_writes _ _ _ _).mp hw)
  rw [replay_bg_tilemap, hlast]
  rfl

theorem glyph_length (cfg : Config) (hok : glyphs_ok cfg) (d : Nat) (hd : d < 10) :
    (glyph cfg d).length = cfg.NUMBER_WIDTH * cfg.NUMBER_HEIGHT := by
  have hlen : d < cfg.NUMBERS.length := by rw [hok.1]; exact hd
  apply hok.2
  rw [glyph, List.getD_eq_getElem _ _ hlen]
  exact List.getElem_mem _

theorem glyph_entry (cfg : Config) (hok : glyphs_ok cfg) (d : Nat) (hd : d < 10) (i j : Nat)
    (hi : i < cfg.NUMBER_WIDTH) (hj : j < cfg.NUMBER_HEIGHT) :
    (glyph cfg d)[i + j * cfg.NUMBER_WIDTH]?
      = some (List.getD (glyph cfg d) (i + j * cfg.NUMBER_WIDTH) 0) := by
  have hlen : i + j * cfg.NUMBER_WIDTH < (glyph cfg d).length := by
    rw [glyph_length cfg hok d hd]
    exact glyph_index_lt _ _ i j hi hj
  rw [List.getElem?_eq_getElem hlen, List.getD_eq_getElem _ _ hlen]

/-- With 5 by 8 glyphs the six footprints are disjoint, so `update_time` on a
tilemap that holds tile 0 on every cell gives full coverage. -/
theorem full_coverage_of_cleared (cfg : Config) (hok : glyphs_ok cfg)
    (hW : cfg.NUMBER_WIDTH = 5) (hH : cfg.NUMBER_HEIGHT = 8) (style : Bool) (tm : Tm)
    (hh : tm.tm_hour ≤ 23) (hm : tm.tm_min ≤ 59) (g : GBC_Graphics)
    (hclear : ∀ cx cy : Int, 0 ≤ cx → cx < cfg.GBC_TILEMAP_WIDTH → 0 ≤ cy →
      cy < cfg.GBC_TILEMAP_HEIGHT → g.bg_tilemap cx cy = 0) :
    full_coverage cfg style tm
      (replay (update_calls cfg (formatted_digit style tm 0) (formatted_digit style tm 1)
        (formatted_digit style tm 2) (formatted_digit style tm 3)) g).bg_tilemap := by
  refine ⟨?_, ?_, ?_, ?_⟩
  · intro k i j hk hi hj
    rw [glyph_entry cfg hok _ (formatted_digit_lt style tm hh hm k hk) i j hi hj]
    congr 1
    symm
    rw [hW] at hi
    rw [hH] at hj
    obtain ⟨q0, q1, q2, q3, q4, q5⟩ := position_values cfg.PBL_ROUND
    apply update_calls_value
    · simp only [in_footprint, in_rect, hW, hH]
      interval_cases k <;> simp only [q0, q1, q2, q3, q4, q5] <;> split_ifs <;> omega
    · intro t ht
      rw [mem_update_calls] at ht
      simp only [in_rect, hW, hH] at ht ⊢
      interval_cases k <;> simp only [q0, q1, q2, q3, q4, q5] at ht ⊢ <;>
        split_ifs at ht ⊢ <;>
        rcases ht with h | h | h | h | h | h <;>
        first
        | (exfalso; omega)
        | (rw [h.2]; simp)
  · apply update_calls_value
    · exact Or.inr (Or.inr (Or.inr (Or.inr (Or.inl ⟨rfl, rfl⟩))))
    · intro t ht
      rw [mem_update_calls] at ht
      obtain ⟨q0, q1, q2, q3, q4, q5⟩ := position_values cfg.PBL_ROUND
      simp only [in_rect, hW, hH, q0, q1, q2, q3, q4, q5] at ht
      split_ifs at ht <;> omega
  · apply update_calls_value
    · exact Or.inr (Or.inr (Or.inr (Or.inr (Or.inr ⟨rfl, rfl⟩))))
    · intro t ht
      rw [mem_update_calls] at ht
      obtain ⟨q0, q1, q2, q3, q4, q5⟩ := position_values cfg.PBL_ROUND
      simp only [in_rect, hW, hH, q0, q1, q2, q3, q4, q5] at ht
      split_ifs at ht <;> omega
  · intro cx cy h1 h2 h3 h4 hout
    rw [update_calls_outside cfg _ _ _ _ g cx cy hout]
    exact hclear cx cy h1 h2 h3 h4

/-- After `generate_background` every cell of the tilemap holds tile 0 and tile-palette 0. -/
theorem clear_calls_cleared (cfg : Config) (g : GBC_Graphics) (cx cy : Int)
    (h1 : 0 ≤ cx) (h2 : cx < cfg.GBC_TILEMAP_WIDTH) (h3 : 0 ≤ cy)
    (h4 : cy < cfg.GBC_TILEMAP_HEIGHT) :
    (replay (clear_calls cfg.GBC_TILEMAP_WIDTH cfg.GBC_TILEMAP_HEIGHT
        ++ (if cfg.PBL_ROUND then [GfxCall.bg_move (-2) (-6)] else [])) g).bg_tilemap cx cy = 0
      ∧ (replay (clear_calls cfg.GBC_TILEMAP_WIDTH cfg.GBC_TILEMAP_HEIGHT
        ++ (if cfg.PBL_ROUND then [GfxCall.bg_move (-2) (-6)] else [])) g).bg_attrmap cx cy = 0 := by
  have ht : last_write cx cy (tile_writes (clear_calls cfg.GBC_TILEMAP_WIDTH cfg.GBC_TILEMAP_HEIGHT
      ++ (if cfg.PBL_ROUND then [GfxCall.bg_move (-2) (-6)] else []))) = some 0 := by
    apply last_write_eq_some
    · rw [mem_cells]
      refine ⟨0, ?_⟩
      rw [mem_tile_writes, List.mem_append, mem_clear_calls_tile]
      exact Or.inl ⟨h1, h2, h3, h4, rfl⟩
    · rintro ⟨a, b, t⟩ hw _ _
      rw [mem_tile_writes, List.mem_append, mem_clear_calls_tile] at hw
      rcases hw with hw | hw
      · exact hw.2.2.2.2
      · cases cfg.PBL_ROUND <;> simp at hw
  have hp : last_write cx cy (palette_writes (clear_calls cfg.GBC_TILEMAP_WIDTH
      cfg.GBC_TILEMAP_HEIGHT
      ++ (if cfg.PBL_ROUND then [GfxCall.bg_move (-2) (-6)] else []))) = some 0 := by
    apply last_write_eq_some
    · rw [mem_cells]
      refine ⟨0, ?_⟩
      rw [mem_palette_writes, List.mem_append, mem_clear_calls_palette]
      exact Or.inl ⟨h1, h2, h3, h4, rfl⟩
    · rintro ⟨a, b, t⟩ hw _ _
      rw [mem_palette_writes, List.mem_append, mem_clear_calls_palette] at hw
      rcases hw with hw | hw
      · exact hw.2.2.2.2
      · cases cfg.PBL_ROUND <;> simp at hw
  rw [replay_bg_tilemap, replay_bg_attrmap, ht, hp]
  exact ⟨rfl, rfl⟩

/-! ## The layout table -/

/-- C3. The layout table has six anchors in the order H1, H2, M1, M2, Dot1,
Dot2: the rectangular variant is (3,2), (10,2), (3,12), (10,12), (5,10),
(12,10), the round variant is (5,2), (12,2), (5,12), (12,12), (7,10), (14,10),
and at every index the round anchor is the rectangular one with x increased by
2 and y unchanged. -/
theorem POSITIONS_layout :
    POSITIONS false = [(3, 2), (10, 2), (3, 12), (10, 12), (5, 10), (12, 10)]
      ∧ POSITIONS true = [(5, 2), (12, 2), (5, 12), (12, 12), (7, 10), (14, 10)]
      ∧ (POSITIONS false).length = 6 ∧ (POSITIONS true).length = 6
      ∧ ∀ k : Fin 6, (POSITIONS true)[k.val]? =
          ((POSITIONS false)[k.val]?).map (fun a => (a.1 + 2, a.2)) := by
  refine ⟨rfl, rfl, rfl, rfl, ?_⟩
  intro k
  fin_cases k <;> rfl

/-! ## `draw_number` -/

/-- C4. For every digit `d` in 0..9, every anchor `(x, y)` of the tilemap whose
`NUMBER_WIDTH` by `NUMBER_HEIGHT` footprint lies inside it, and every prior
context, `draw_number d x y` has a result in which each cell `(x + i, y + j)`
with `i < NUMBER_WIDTH`, `j < NUMBER_HEIGHT` holds the glyph entry
`glyph(d)[i + j * NUMBER_WIDTH]`; the calls it adds are the column-by-column
tile writes of `digit_calls`, `NUMBER_WIDTH * NUMBER_HEIGHT` of them, and each
of those cells is written exactly once.  The tilemap is at most 255 cells wide
and high, so every cell written lies in it and every sum the C code computes,
`x + start_x`, `y + start_y` and `x + y * NUMBER_WIDTH`, is below `2 ^ 31` and
does not overflow an `int`. -/
theorem draw_number_writes_glyph (cfg : Config) (hok : glyphs_ok cfg) (d : Nat) (hd : d < 10)
    (x y : Int) (hw : cfg.GBC_TILEMAP_WIDTH ≤ 255) (hh : cfg.GBC_TILEMAP_HEIGHT ≤ 255)
    (hx0 : 0 ≤ x) (hx1 : x + cfg.NUMBER_WIDTH ≤ cfg.GBC_TILEMAP_WIDTH)
    (hy0 : 0 ≤ y) (hy1 : y + cfg.NUMBER_HEIGHT ≤ cfg.GBC_TILEMAP_HEIGHT)
    (g : GBC_Graphics) :
    ∃ g1, draw_number cfg (d : Int) x y g = some g1
      ∧ (∀ i j : Nat, i < cfg.NUMBER_WIDTH → j < cfg.NUMBER_HEIGHT →
          (glyph cfg d)[i + j * cfg.NUMBER_WIDTH]? = some (g1.bg_tilemap (x + i) (y + j)))
      ∧ g1.calls = g.calls ++ digit_calls cfg.NUMBER_WIDTH cfg.NUMBER_HEIGHT (glyph cfg d) x y
      ∧ (digit_calls cfg.NUMBER_WIDTH cfg.NUMBER_HEIGHT (glyph cfg d) x y).length
          = cfg.NUMBER_WIDTH * cfg.NUMBER_HEIGHT
      ∧ (∀ c ∈ digit_calls cfg.NUMBER_WIDTH cfg.NUMBER_HEIGHT (glyph cfg d) x y,
          ∃ cx cy t, c = GfxCall.bg_set_tile cx cy t)
      ∧ (∀ i j : Nat, i < cfg.NUMBER_WIDTH → j < cfg.NUMBER_HEIGHT →
          (cells (tile_writes (digit_calls cfg.NUMBER_WIDTH cfg.NUMBER_HEIGHT (glyph cfg d) x y))).countP
            (fun c => decide (c = (x + i, y + j))) = 1)
      ∧ (∀ cx cy t, GfxCall.bg_set_tile cx cy t
            ∈ digit_calls cfg.NUMBER_WIDTH cfg.NUMBER_HEIGHT (glyph cfg d) x y →
          0 ≤ cx ∧ cx < cfg.GBC_TILEMAP_WIDTH ∧ 0 ≤ cy ∧ cy < cfg.GBC_TILEMAP_HEIGHT
            ∧ cx < 2 ^ 31 ∧ cy < 2 ^ 31)
      ∧ ∀ i j : Nat, i < cfg.NUMBER_WIDTH → j < cfg.NUMBER_HEIGHT →
          i + j * cfg.NUMBER_WIDTH < 2 ^ 31 := by
  refine ⟨_, draw_number_eq cfg hok d hd x y g, ?_, replay_calls _ _, length_digit_calls _ _ _ _ _,
    digit_calls_tile_only _ _ _ _ _, ?_, ?_, ?_⟩
  · intro i j hi hj
    have hmem : GfxCall.bg_set_tile (x + i) (y + j)
        (List.getD (glyph cfg d) (i + j * cfg.NUMBER_WIDTH) 0)
        ∈ digit_calls cfg.NUMBER_WIDTH cfg.NUMBER_HEIGHT (glyph cfg d) x y := by
      rw [mem_digit_calls]
      refine ⟨by unfold in_rect; simp; omega, ?_⟩
      have h1 : (x + (i : Int) - x).toNat = i := by simp
      have h2 : (y + (j : Int) - y).toNat = j := by simp
      rw [h1, h2]
    have hlast : last_write (x + i) (y + j)
        (tile_writes (digit_calls cfg.NUMBER_WIDTH cfg.NUMBER_HEIGHT (glyph cfg d) x y))
        = some (List.getD (glyph cfg d) (i + j * cfg.NUMBER_WIDTH) 0) := by
      apply last_write_eq_some
      · rw [mem_cells]
        exact ⟨_, (mem_tile_writes _ _ _ _).mpr hmem⟩
      · rintro ⟨a, b, t⟩ hw ha hb
        simp only at ha hb
        subst ha hb
        have := ((mem_digit_calls _ _ _ _ _ _ _ _).mp ((mem_tile_writes _ _ _ _).mp hw)).2
        have h1 : (x + (i : Int) - x).toNat = i := by simp
        have h2 : (y + (j : Int) - y).toNat = j := by simp
        rw [h1, h2] at this
        exact this
    rw [glyph_entry cfg hok d hd i j hi hj, replay_bg_tilemap, hlast]
    rfl
  · intro i j hi hj
    refine List.count_eq_one_of_mem (cells_digit_calls_nodup _ _ _ _ _) ?_
    rw [mem_cells]
    refine ⟨List.getD (glyph cfg d) (i + j * cfg.NUMBER_WIDTH) 0, ?_⟩
    rw [mem_tile_writes, mem_digit_calls]
    refine ⟨by unfold in_rect; simp; omega, ?_⟩
    have h1 : (x + (i : Int) - x).toNat = i := by simp
    have h2 : (y + (j : Int) - y).toNat = j := by simp
    rw [h1, h2]
  · intro cx cy t hmem
    have hin := ((mem_digit_calls _ _ _ _ _ _ _ _).mp hmem).1
    unfold in_rect at hin
    simp only at hin
    omega
  · intro i j hi hj
    have hW : cfg.NUMBER_WIDTH ≤ 255 := by omega
    have hH : cfg.NUMBER_HEIGHT ≤ 255 := by omega
    have hidx := glyph_index_lt cfg.NUMBER_WIDTH cfg.NUMBER_HEIGHT i j hi hj
    have hprod : cfg.NUMBER_WIDTH * cfg.NUMBER_HEIGHT ≤ 255 * 255 := Nat.mul_le_mul hW hH
    omega

/-- Witness for `draw_number_writes_glyph`: digit 7 at (10, 12) of the sample
build, whose tilemap is 32 by 32, on the context with leftover contents. -/
theorem draw_number_writes_glyph_witness :
    glyphs_ok sample_cfg ∧ 7 < 10
      ∧ (sample_cfg.GBC_TILEMAP_WIDTH ≤ 255 ∧ sample_cfg.GBC_TILEMAP_HEIGHT ≤ 255)
      ∧ ((0 : Int) ≤ 10 ∧ (10 : Int) + sample_cfg.NUMBER_WIDTH ≤ sample_cfg.GBC_TILEMAP_WIDTH)
      ∧ ((0 : Int) ≤ 12 ∧ (12 : Int) + sample_cfg.NUMBER_HEIGHT ≤ sample_cfg.GBC_TILEMAP_HEIGHT)
      ∧ ∃ g1, draw_number sample_cfg ((7 : Nat) : Int) 10 12 stale_graphics = some g1
        ∧ (∀ i j : Nat, i < sample_cfg.NUMBER_WIDTH → j < sample_cfg.NUMBER_HEIGHT →
            (glyph sample_cfg 7)[i + j * sample_cfg.NUMBER_WIDTH]?
              = some (g1.bg_tilemap (10 + i) (12 + j)))
        ∧ g1.calls = stale_graphics.calls
            ++ digit_calls sample_cfg.NUMBER_WIDTH sample_cfg.NUMBER_HEIGHT (glyph sample_cfg 7) 10 12
        ∧ (digit_calls sample_cfg.NUMBER_WIDTH sample_cfg.NUMBER_HEIGHT
            (glyph sample_cfg 7) 10 12).length
            = sample_cfg.NUMBER_WIDTH * sample_cfg.NUMBER_HEIGHT
        ∧ (∀ c ∈ digit_calls sample_cfg.NUMBER_WIDTH sample_cfg.NUMBER_HEIGHT
            (glyph sample_cfg 7) 10 12, ∃ cx cy t, c = GfxCall.bg_set_tile cx cy t)
        ∧ (∀ i j : Nat, i < sample_cfg.NUMBER_WIDTH → j < sample_cfg.NUMBER_HEIGHT →
            (cells (tile_writes (digit_calls sample_cfg.NUMBER_WIDTH sample_cfg.NUMBER_HEIGHT
              (glyph sample_cfg 7) 10 12))).countP
              (fun c => decide (c = ((10 : Int) + i, (12 : Int) + j))) = 1)
        ∧ (∀ cx cy t, GfxCall.bg_set_tile cx cy t
              ∈ digit_calls sample_cfg.NUMBER_WIDTH sample_cfg.NUMBER_HEIGHT
                (glyph sample_cfg 7) 10 12 →
            0 ≤ cx ∧ cx < sample_cfg.GBC_TILEMAP_WIDTH ∧ 0 ≤ cy
              ∧ cy < sample_cfg.GBC_TILEMAP_HEIGHT ∧ cx < 2 ^ 31 ∧ cy < 2 ^ 31)
        ∧ ∀ i j : Nat, i < sample_cfg.NUMBER_WIDTH → j < sample_cfg.NUMBER_HEIGHT →
            i + j * sample_cfg.NUMBER_WIDTH < 2 ^ 31 :=
  ⟨by decide, by decide, ⟨by decide, by decide⟩, ⟨by decide, by decide⟩,
    ⟨by decide, by decide⟩,
    draw_number_writes_glyph sample_cfg (by decide) 7 (by decide) 10 12 (by decide) (by decide)
      (by decide) (by decide) (by decide) (by decide) stale_graphics⟩

/-- C5 (as amended). For every digit `d` in 0..9, every anchor and every prior
context, `draw_number` has a result in which every cell carries the
tile-palette it carried before, and none of the calls it adds is a palette
write.  After `generate_background`, which sets palette 0 on every cell of the
tilemap, each of the `NUMBER_WIDTH * NUMBER_HEIGHT` cells `draw_number` writes
that lies in the tilemap therefore carries tile-palette 0. -/
theorem draw_number_keeps_palette (cfg : Config) (hok : glyphs_ok cfg) (d : Nat) (hd : d < 10)
    (x y : Int) (hw : cfg.GBC_TILEMAP_WIDTH ≤ 255) (hh : cfg.GBC_TILEMAP_HEIGHT ≤ 255)
    (fuel : Nat) (hfw : cfg.GBC_TILEMAP_WIDTH < fuel) (hfh : cfg.GBC_TILEMAP_HEIGHT < fuel)
    (g : GBC_Graphics) :
    (∃ g1 new, draw_number cfg (d : Int) x y g = some g1
        ∧ (∀ cx cy, g1.bg_attrmap cx cy = g.bg_attrmap cx cy)
        ∧ g1.calls = g.calls ++ new
        ∧ ∀ cx cy p, GfxCall.bg_set_tile_palette cx cy p ∉ new)
      ∧ ∃ g1 g2, generate_background cfg fuel g = some g1
        ∧ draw_number cfg (d : Int) x y g1 = some g2
        ∧ ∀ i j : Nat, i < cfg.NUMBER_WIDTH → j < cfg.NUMBER_HEIGHT →
            0 ≤ x + i → x + i < cfg.GBC_TILEMAP_WIDTH →
            0 ≤ y + j → y + j < cfg.GBC_TILEMAP_HEIGHT →
            g2.bg_attrmap (x + i) (y + j) = 0 := by
  have hkeep : ∀ (g : GBC_Graphics) (cx cy : Int),
      (replay (digit_calls cfg.NUMBER_WIDTH cfg.NUMBER_HEIGHT (glyph cfg d) x y) g).bg_attrmap cx cy
        = g.bg_attrmap cx cy := by
    intro g cx cy
    rw [replay_bg_attrmap, palette_writes_of_tile_only _ (digit_calls_tile_only _ _ _ _ _)]
    rfl
  refine ⟨⟨_, _, draw_number_eq cfg hok d hd x y g, hkeep g, replay_calls _ _, ?_⟩,
    _, _, generate_background_eq cfg hw hh fuel hfw hfh g, draw_number_eq cfg hok d hd x y _, ?_⟩
  · intro cx cy p hmem
    obtain ⟨a, b, t, hc⟩ := digit_calls_tile_only _ _ _ _ _ _ hmem
    cases hc
  · intro i j _ _ h1 h2 h3 h4
    rw [hkeep]
    exact (clear_calls_cleared cfg g (x + i) (y + j) h1 h2 h3 h4).2

/-- Witness for `draw_number_keeps_palette`: digit 0 at (3, 2) of the sample
build, on the context with leftover contents. -/
theorem draw_number_keeps_palette_witness :
    glyphs_ok sample_cfg ∧ (0 : Nat) < 10
      ∧ (∃ g1 new, draw_number sample_cfg ((0 : Nat) : Int) 3 2 stale_graphics = some g1
        ∧ (∀ cx cy, g1.bg_attrmap cx cy = stale_graphics.bg_attrmap cx cy)
        ∧ g1.calls = stale_graphics.calls ++ new
        ∧ ∀ cx cy p, GfxCall.bg_set_tile_palette cx cy p ∉ new)
      ∧ ∃ g1 g2, generate_background sample_cfg 33 stale_graphics = some g1
        ∧ draw_number sample_cfg ((0 : Nat) : Int) 3 2 g1 = some g2
        ∧ ∀ i j : Nat, i < sample_cfg.NUMBER_WIDTH → j < sample_cfg.NUMBER_HEIGHT →
            0 ≤ (3 : Int) + i → (3 : Int) + i < sample_cfg.GBC_TILEMAP_WIDTH →
            0 ≤ (2 : Int) + j → (2 : Int) + j < sample_cfg.GBC_TILEMAP_HEIGHT →
            g2.bg_attrmap (3 + i) (2 + j) = 0 :=
  ⟨by decide, by decide,
    draw_number_keeps_palette sample_cfg (by decide) 0 (by decide) 3 2 (by decide) (by decide) 33
      (by decide) (by decide) stale_graphics⟩

/-- C5 (counterexample). On a context whose cells carry tile-palette 3,
`draw_number` of digit 0 at (3, 2) writes cell (3, 2), and the cell still
carries tile-palette 3 afterwards, not 0. -/
theorem draw_number_palette_not_reset :
    ∃ g1, draw_number sample_cfg 0 3 2 stale_graphics = some g1
      ∧ (∃ t, GfxCall.bg_set_tile 3 2 t ∈ g1.calls)
      ∧ g1.bg_attrmap 3 2 = 3 ∧ g1.bg_attrmap 3 2 ≠ 0 := by
  have hkeep : (replay (digit_calls sample_cfg.NUMBER_WIDTH sample_cfg.NUMBER_HEIGHT
      (glyph sample_cfg 0) 3 2) stale_graphics).bg_attrmap 3 2 = 3 := by
    rw [replay_bg_attrmap, palette_writes_of_tile_only _ (digit_calls_tile_only _ _ _ _ _)]
    rfl
  refine ⟨_, draw_number_eq sample_cfg (by decide) 0 (by decide) 3 2 stale_graphics, ?_, hkeep, ?_⟩
  · refine ⟨List.getD (glyph sample_cfg 0) 0 0, ?_⟩
    rw [replay_calls, List.mem_append, mem_digit_calls]
    exact Or.inr ⟨by decide, rfl⟩
  · rw [hkeep]
    decide

/-! ## `update_time` -/

/-- C1. Full coverage: for every valid local time and either value of the
24-hour preference, with 5 by 8 glyphs, `generate_background` followed by
`update_time` leaves a tilemap in which each cell of the digit rectangle at
`POSITIONS[k]`, `k` in 0..3, holds the glyph entry `i + j * 5` of the `k`-th
formatted digit, the cells `POSITIONS[4]` and `POSITIONS[5]` hold tile 1, and
every other cell of the tilemap holds tile 0. -/
theorem full_coverage_after_clear (cfg : Config) (hok : glyphs_ok cfg)
    (hW : cfg.NUMBER_WIDTH = 5) (hH : cfg.NUMBER_HEIGHT = 8)
    (hw : cfg.GBC_TILEMAP_WIDTH ≤ 255) (hh : cfg.GBC_TILEMAP_HEIGHT ≤ 255)
    (fuel : Nat) (hfw : cfg.GBC_TILEMAP_WIDTH < fuel) (hfh : cfg.GBC_TILEMAP_HEIGHT < fuel)
    (style : Bool) (tm : Tm) (hhour : tm.tm_hour ≤ 23) (hmin : tm.tm_min ≤ 59)
    (g : GBC_Graphics) :
    ∃ g1 g2, generate_background cfg fuel g = some g1
      ∧ update_time cfg style tm g1 = some g2
      ∧ full_coverage cfg style tm g2.bg_tilemap
      ∧ (List.range 4).map (formatted_digit style tm)
          = [shown_hour style tm / 10, shown_hour style tm % 10, tm.tm_min / 10, tm.tm_min % 10] := by
  obtain ⟨d0, d1, d2, d3⟩ := formatted_digit_eq style tm hhour hmin
  refine ⟨_, _, generate_background_eq cfg hw hh fuel hfw hfh g,
    update_time_eq cfg hok style tm hhour hmin _,
    full_coverage_of_cleared cfg hok hW hH style tm hhour hmin _
      (fun cx cy h1 h2 h3 h4 => (clear_calls_cleared cfg g cx cy h1 h2 h3 h4).1), ?_⟩
  rw [← d0, ← d1, ← d2, ← d3]
  rfl

/-- Witness for `full_coverage_after_clear`: 12:34 with the 24-hour preference
on the rectangular sample build; the digits are 1, 2, 3, 4 and the anchors
(3,2), (10,2), (3,12), (10,12), with the dots at (5,10) and (12,10). -/
theorem full_coverage_after_clear_witness :
    glyphs_ok sample_cfg
      ∧ (List.range 6).map (position sample_cfg.PBL_ROUND)
          = [(3, 2), (10, 2), (3, 12), (10, 12), (5, 10), (12, 10)]
      ∧ ∃ g1 g2, generate_background sample_cfg 33 stale_graphics = some g1
        ∧ update_time sample_cfg true ⟨12, 34⟩ g1 = some g2
        ∧ full_coverage sample_cfg true ⟨12, 34⟩ g2.bg_tilemap
        ∧ (List.range 4).map (formatted_digit true ⟨12, 34⟩) = [1, 2, 3, 4] :=
  ⟨by decide, by decide,
    full_coverage_after_clear sample_cfg (by decide) rfl rfl (by decide) (by decide) 33
      (by decide) (by decide) true ⟨12, 34⟩ (by decide) (by decide) stale_graphics⟩

/-- C2. 24/12 consistency: for every minute of the day `m` in 0..1439, with
hour `m / 60` and minute `m % 60`, the format `"%H%M"` of the 24-hour
preference gives the two decimal digits of the hour and of the minute, the
format `"%I%M"` of the 12-hour preference gives the same two minute digits and
the two decimal digits of `h12`, where `h12` is 12 if the hour is a multiple of
12 and the hour modulo 12 otherwise; the 12-hour hour digits are never "00". -/
theorem strftime_24h_12h_consistent (m : Nat) (hm : m < 1440) :
    strftime 8 "%H%M" ⟨m / 60, m % 60⟩
        = some [48 + m / 60 / 10, 48 + m / 60 % 10, 48 + m % 60 / 10, 48 + m % 60 % 10, 0]
      ∧ strftime 8 "%I%M" ⟨m / 60, m % 60⟩
        = some [48 + (if m / 60 % 12 = 0 then 12 else m / 60 % 12) / 10,
            48 + (if m / 60 % 12 = 0 then 12 else m / 60 % 12) % 10,
            48 + m % 60 / 10, 48 + m % 60 % 10, 0]
      ∧ ¬ ((if m / 60 % 12 = 0 then 12 else m / 60 % 12) / 10 = 0
          ∧ (if m / 60 % 12 = 0 then 12 else m / 60 % 12) % 10 = 0) := by
  have hh : m / 60 ≤ 23 := by omega
  have hmin : m % 60 ≤ 59 := by omega
  have h12 : hour_12 (m / 60) = if m / 60 % 12 = 0 then 12 else m / 60 % 12 := by
    unfold hour_12
    split_ifs <;> omega
  have h24f := strftime_time_format true ⟨m / 60, m % 60⟩ hh hmin
  have h12f := strftime_time_format false ⟨m / 60, m % 60⟩ hh hmin
  simp only [shown_hour, if_true, Bool.false_eq_true, if_false, h12] at h24f h12f
  refine ⟨h24f, h12f, ?_⟩
  by_cases hc : m / 60 % 12 = 0
  · simp only [if_pos hc]
    omega
  · simp only [if_neg hc]
    omega

/-- Witness for `strftime_24h_12h_consistent`: 13:07, minute 787 of the day,
is "1307" in 24-hour mode and "0107" in 12-hour mode; 00:00, minute 0, is
"1200" in 12-hour mode. -/
theorem strftime_24h_12h_consistent_witness :
    (787 < 1440
      ∧ strftime 8 "%H%M" ⟨13, 7⟩ = some [49, 51, 48, 55, 0]
      ∧ strftime 8 "%I%M" ⟨13, 7⟩ = some [48, 49, 48, 55, 0]
      ∧ ¬ (1 / 10 = 0 ∧ 1 % 10 = 0))
    ∧ (0 < 1440
      ∧ strftime 8 "%H%M" ⟨0, 0⟩ = some [48, 48, 48, 48, 0]
      ∧ strftime 8 "%I%M" ⟨0, 0⟩ = some [49, 50, 48, 48, 0]
      ∧ ¬ (12 / 10 = 0 ∧ 12 % 10 = 0)) :=
  ⟨⟨by decide, strftime_24h_12h_consistent 787 (by decide)⟩,
    ⟨by decide, strftime_24h_12h_consistent 0 (by decide)⟩⟩

/-- C10. Digit-range safety: at every valid local time and with either
preference the formatted output is four characters and the terminator, five
bytes of the eight of `s_buffer`; each of the four characters is a decimal
digit `'0'..'9'`, so each number `character - '0'` that `update_time` passes
through `draw_number_from_char` to `draw_number` lies in 0..9.  `draw_number`
has no check of its own: on a number outside the glyph table it has no result. -/
theorem update_time_digits_in_range (style : Bool) (tm : Tm) (hh : tm.tm_hour ≤ 23)
    (hm : tm.tm_min ≤ 59) :
    ∃ c0 c1 c2 c3 : Nat,
      strftime 8 (if style then "%H%M" else "%I%M") tm = some [c0, c1, c2, c3, 0]
        ∧ [c0, c1, c2, c3, 0].length ≤ 8
        ∧ ('0'.toNat ≤ c0 ∧ c0 ≤ '9'.toNat) ∧ ('0'.toNat ≤ c1 ∧ c1 ≤ '9'.toNat)
        ∧ ('0'.toNat ≤ c2 ∧ c2 ≤ '9'.toNat) ∧ ('0'.toNat ≤ c3 ∧ c3 ≤ '9'.toNat)
        ∧ (0 ≤ (c0 : Int) - '0'.toNat ∧ (c0 : Int) - '0'.toNat ≤ 9)
        ∧ (0 ≤ (c1 : Int) - '0'.toNat ∧ (c1 : Int) - '0'.toNat ≤ 9)
        ∧ (0 ≤ (c2 : Int) - '0'.toNat ∧ (c2 : Int) - '0'.toNat ≤ 9)
        ∧ (0 ≤ (c3 : Int) - '0'.toNat ∧ (c3 : Int) - '0'.toNat ≤ 9)
        ∧ (∀ (cfg : Config) (g : GBC_Graphics), update_time cfg style tm g =
            (draw_number cfg ((c0 : Int) - '0'.toNat) (position cfg.PBL_ROUND 0).1
              (position cfg.PBL_ROUND 0).2 g).bind (fun g1 =>
            (draw_number cfg ((c1 : Int) - '0'.toNat) (position cfg.PBL_ROUND 1).1
              (position cfg.PBL_ROUND 1).2 g1).bind (fun g2 =>
            (draw_number cfg ((c2 : Int) - '0'.toNat) (position cfg.PBL_ROUND 2).1
              (position cfg.PBL_ROUND 2).2 g2).bind (fun g3 =>
            (draw_number cfg ((c3 : Int) - '0'.toNat) (position cfg.PBL_ROUND 3).1
              (position cfg.PBL_ROUND 3).2 g3).bind (fun g4 =>
            some (draw_dot (position cfg.PBL_ROUND 5).1 (position cfg.PBL_ROUND 5).2
              (draw_dot (position cfg.PBL_ROUND 4).1 (position cfg.PBL_ROUND 4).2 g4)))))))
        ∧ ∀ (cfg : Config) (number sx sy : Int) (g : GBC_Graphics),
            number < 0 ∨ (cfg.NUMBERS.length : Int) ≤ number →
            draw_number cfg number sx sy g = none := by
  have hs := shown_hour_le style tm hh
  have h0 : '0'.toNat = 48 := rfl
  have h9 : '9'.toNat = 57 := rfl
  refine ⟨_, _, _, _, strftime_time_format style tm hh hm, by simp, ?_, ?_, ?_, ?_, ?_, ?_, ?_, ?_,
    ?_, ?_⟩
  · rw [h0, h9]; omega
  · rw [h0, h9]; omega
  · rw [h0, h9]; omega
  · rw [h0, h9]; omega
  · rw [h0]; omega
  · rw [h0]; omega
  · rw [h0]; omega
  · rw [h0]; omega
  · intro cfg g
    unfold update_time
    rw [strftime_time_format style tm hh hm]
    rfl
  · intro cfg number sx sy g h
    exact draw_number_out_of_range cfg number sx sy g h

/-- Witness for `update_time_digits_in_range`: 23:59 with the 12-hour preference. -/
theorem update_time_digits_in_range_witness :
    (23 ≤ 23 ∧ 59 ≤ 59)
      ∧ ∃ c0 c1 c2 c3 : Nat,
      strftime 8 (if false then "%H%M" else "%I%M") ⟨23, 59⟩ = some [c0, c1, c2, c3, 0]
        ∧ [c0, c1, c2, c3, 0].length ≤ 8
        ∧ ('0'.toNat ≤ c0 ∧ c0 ≤ '9'.toNat) ∧ ('0'.toNat ≤ c1 ∧ c1 ≤ '9'.toNat)
        ∧ ('0'.toNat ≤ c2 ∧ c2 ≤ '9'.toNat) ∧ ('0'.toNat ≤ c3 ∧ c3 ≤ '9'.toNat)
        ∧ (0 ≤ (c0 : Int) - '0'.toNat ∧ (c0 : Int) - '0'.toNat ≤ 9)
        ∧ (0 ≤ (c1 : Int) - '0'.toNat ∧ (c1 : Int) - '0'.toNat ≤ 9)
        ∧ (0 ≤ (c2 : Int) - '0'.toNat ∧ (c2 : Int) - '0'.toNat ≤ 9)
        ∧ (0 ≤ (c3 : Int) - '0'.toNat ∧ (c3 : Int) - '0'.toNat ≤ 9)
        ∧ (∀ (cfg : Config) (g : GBC_Graphics), update_time cfg false ⟨23, 59⟩ g =
            (draw_number cfg ((c0 : Int) - '0'.toNat) (position cfg.PBL_ROUND 0).1
              (position cfg.PBL_ROUND 0).2 g).bind (fun g1 =>
            (draw_number cfg ((c1 : Int) - '0'.toNat) (position cfg.PBL_ROUND 1).1
              (position cfg.PBL_ROUND 1).2 g1).bind (fun g2 =>
            (draw_number cfg ((c2 : Int) - '0'.toNat) (position cfg.PBL_ROUND 2).1
              (position cfg.PBL_ROUND 2).2 g2).bind (fun g3 =>
            (draw_number cfg ((c3 : Int) - '0'.toNat) (position cfg.PBL_ROUND 3).1
              (position cfg.PBL_ROUND 3).2 g3).bind (fun g4 =>
            some (draw_dot (position cfg.PBL_ROUND 5).1 (position cfg.PBL_ROUND 5).2
              (draw_dot (position cfg.PBL_ROUND 4).1 (position cfg.PBL_ROUND 4).2 g4)))))))
        ∧ ∀ (cfg : Config) (number sx sy : Int) (g : GBC_Graphics),
            number < 0 ∨ (cfg.NUMBERS.length : Int) ≤ number →
            draw_number cfg number sx sy g = none :=
  ⟨⟨by decide, by decide⟩,
    update_time_digits_in_range false ⟨23, 59⟩ (by decide) (by decide)⟩

/-- The cells `update_time` writes, in the order it writes them, are the same for all digits. -/
theorem cells_update_calls_eq (cfg : Config) (a0 a1 a2 a3 b0 b1 b2 b3 : Nat) :
    cells (tile_writes (update_calls cfg a0 a1 a2 a3))
      = cells (tile_writes (update_calls cfg b0 b1 b2 b3)) := by
  have happ : ∀ as bs : List GfxCall,
      cells (tile_writes (as ++ bs)) = cells (tile_writes as) ++ cells (tile_writes bs) := by
    intro as bs
    rw [tile_writes_append]
    simp [cells]
  simp only [update_calls, happ, cells_digit_calls]

/-- C6. No clearing is needed between updates: for every prior context and any
two valid instants, each with either preference, `update_time` at the first
and then at the second gives exactly the tilemap that `update_time` at the
second alone gives from the same prior context; the cells written are the same
list whatever the digits.  With equal instants this is idempotence. -/
theorem update_time_overwrites (cfg : Config) (hok : glyphs_ok cfg) (style1 style2 : Bool)
    (t1 t2 : Tm) (h1h : t1.tm_hour ≤ 23) (h1m : t1.tm_min ≤ 59) (h2h : t2.tm_hour ≤ 23)
    (h2m : t2.tm_min ≤ 59) (g : GBC_Graphics) :
    ∃ ga gb gc, update_time cfg style1 t1 g = some ga
      ∧ update_time cfg style2 t2 ga = some gb
      ∧ update_time cfg style2 t2 g = some gc
      ∧ gb.bg_tilemap = gc.bg_tilemap
      ∧ ∃ new1 new2, ga.calls = g.calls ++ new1 ∧ gc.calls = g.calls ++ new2
        ∧ cells (tile_writes new1) = cells (tile_writes new2) := by
  refine ⟨_, _, _, update_time_eq cfg hok style1 t1 h1h h1m g,
    update_time_eq cfg hok style2 t2 h2h h2m _, update_time_eq cfg hok style2 t2 h2h h2m g, ?_,
    _, _, replay_calls _ _, replay_calls _ _, cells_update_calls_eq cfg _ _ _ _ _ _ _ _⟩
  funext cx cy
  by_cases hin : in_footprint cfg cx cy
  · exact update_calls_inside cfg _ _ _ _ _ _ cx cy hin
  · rw [update_calls_outside cfg _ _ _ _ _ cx cy hin, update_calls_outside cfg _ _ _ _ _ cx cy hin,
      update_calls_outside cfg _ _ _ _ _ cx cy hin]

/-- Witness for `update_time_overwrites`: 09:41 with the 12-hour preference,
then 23:59 with the 24-hour preference, on the sample build. -/
theorem update_time_overwrites_witness :
    glyphs_ok sample_cfg
      ∧ ∃ ga gb gc, update_time sample_cfg false ⟨9, 41⟩ stale_graphics = some ga
        ∧ update_time sample_cfg true ⟨23, 59⟩ ga = some gb
        ∧ update_time sample_cfg true ⟨23, 59⟩ stale_graphics = some gc
        ∧ gb.bg_tilemap = gc.bg_tilemap
        ∧ ∃ new1 new2, ga.calls = stale_graphics.calls ++ new1
          ∧ gc.calls = stale_graphics.calls ++ new2
          ∧ cells (tile_writes new1) = cells (tile_writes new2) :=
  ⟨by decide, update_time_overwrites sample_cfg (by decide) false true ⟨9, 41⟩ ⟨23, 59⟩
    (by decide) (by decide) (by decide) (by decide) stale_graphics⟩

/-- C7. Layout stability: for every prior context and every finite run of
minute ticks at valid instants, each with either preference, the run has a
result; every cell outside the four digit rectangles at `POSITIONS[0..3]` and
the two dot cells `POSITIONS[4]`, `POSITIONS[5]` holds the tile index it held
before; and every call the ticks make is a tile write to a cell of those six
footprints. -/
theorem run_ticks_layout_stable (cfg : Config) (hok : glyphs_ok cfg) (ticks : List (Bool × Tm))
    (hvalid : ∀ t ∈ ticks, t.2.tm_hour ≤ 23 ∧ t.2.tm_min ≤ 59) (g : GBC_Graphics) :
    ∃ g1 new, run_ticks cfg ticks g = some g1
      ∧ (∀ cx cy, ¬ in_footprint cfg cx cy → g1.bg_tilemap cx cy = g.bg_tilemap cx cy)
      ∧ g1.calls = g.calls ++ new
      ∧ ∀ c ∈ new, ∃ x y t, c = GfxCall.bg_set_tile x y t ∧ in_footprint cfg x y := by
  induction ticks generalizing g with
  | nil => exact ⟨g, [], rfl, fun _ _ _ => rfl, by simp, by simp⟩
  | cons tick rest ih =>
    obtain ⟨style, now⟩ := tick
    have hnow := hvalid (style, now) (List.mem_cons_self _ _)
    have hstep := update_time_eq cfg hok style now hnow.1 hnow.2 g
    obtain ⟨g1, new, hrun, hframe, hcalls, hnew⟩ :=
      ih (fun t ht => hvalid t (List.mem_cons_of_mem _ ht))
        (replay (update_calls cfg (formatted_digit style now 0) (formatted_digit style now 1)
          (formatted_digit style now 2) (formatted_digit style now 3)) g)
    refine ⟨g1, update_calls cfg (formatted_digit style now 0) (formatted_digit style now 1)
      (formatted_digit style now 2) (formatted_digit style now 3) ++ new, ?_, ?_, ?_, ?_⟩
    · simp only [run_ticks, tick_handler, hstep]
      exact hrun
    · intro cx cy hout
      rw [hframe cx cy hout, update_calls_outside cfg _ _ _ _ g cx cy hout]
    · rw [hcalls, replay_calls, List.append_assoc]
    · intro c hc
      rcases List.mem_append.mp hc with h | h
      · obtain ⟨x, y, t, rfl⟩ := update_calls_tile_only cfg _ _ _ _ c h
        refine ⟨x, y, t, rfl, ?_⟩
        apply (mem_cells_update_calls cfg _ _ _ _ x y).mp
        rw [mem_cells]
        exact ⟨t, (mem_tile_writes _ _ _ _).mpr h⟩
      · exact hnew c h

/-- Witness for `run_ticks_layout_stable`: three ticks, 23:59 and 00:00 with the
24-hour preference and 00:01 with the 12-hour preference, on the sample build. -/
theorem run_ticks_layout_stable_witness :
    glyphs_ok sample_cfg
      ∧ ∃ g1 new, run_ticks sample_cfg [(true, ⟨23, 59⟩), (true, ⟨0, 0⟩), (false, ⟨0, 1⟩)]
            stale_graphics = some g1
        ∧ (∀ cx cy, ¬ in_footprint sample_cfg cx cy →
            g1.bg_tilemap cx cy = stale_graphics.bg_tilemap cx cy)
        ∧ g1.calls = stale_graphics.calls ++ new
        ∧ ∀ c ∈ new, ∃ x y t, c = GfxCall.bg_set_tile x y t ∧ in_footprint sample_cfg x y :=
  ⟨by decide, run_ticks_layout_stable sample_cfg (by decide)
    [(true, ⟨23, 59⟩), (true, ⟨0, 0⟩), (false, ⟨0, 1⟩)] (by decide) stale_graphics⟩

/-! ## Scene setup -/

/-- C9 (as amended). `load_tilesheet` asks for `resource_size / bytes_per_tile`
tiles reduced modulo `2 ^ 16`, the width of `tiles_to_load`; that is the
quotient itself for every resource size whose quotient is below `2 ^ 16`.  The
load starts at tilesheet offset 0 and VRAM tile offset 0, in bank 0. -/
theorem load_tilesheet_request (cfg : Config) (hbytes : 0 < cfg.GBC_TILE_NUM_BYTES)
    (res_size : Nat) (g : GBC_Graphics) :
    ∃ g1, load_tilesheet cfg res_size g = some g1
      ∧ g1.calls = g.calls ++ [GfxCall.load_from_tilesheet_into_vram
          ResourceId.RESOURCE_ID_DATA_DOT_TILESHEET 0
          (res_size / cfg.GBC_TILE_NUM_BYTES % 2 ^ 16) 0 0]
      ∧ (res_size / cfg.GBC_TILE_NUM_BYTES < 2 ^ 16 →
          g1.calls = g.calls ++ [GfxCall.load_from_tilesheet_into_vram
            ResourceId.RESOURCE_ID_DATA_DOT_TILESHEET 0
            (res_size / cfg.GBC_TILE_NUM_BYTES) 0 0]) := by
  have hne : cfg.GBC_TILE_NUM_BYTES ≠ 0 := by omega
  have hres : load_tilesheet cfg res_size g
      = some (GBC_Graphics_load_from_tilesheet_into_vram g
          ResourceId.RESOURCE_ID_DATA_DOT_TILESHEET 0
          (res_size / cfg.GBC_TILE_NUM_BYTES % 2 ^ 16) 0 0) := by
    simp only [load_tilesheet, if_neg hne]
  refine ⟨_, hres, rfl, ?_⟩
  intro hq
  simp only [GBC_Graphics_load_from_tilesheet_into_vram, Nat.mod_eq_of_lt hq]

/-- Witness for `load_tilesheet_request`: a tilesheet of 640 bytes, 40 tiles of 16 bytes. -/
theorem load_tilesheet_request_witness :
    0 < sample_cfg.GBC_TILE_NUM_BYTES
      ∧ ∃ g1, load_tilesheet sample_cfg 640 stale_graphics = some g1
        ∧ g1.calls = stale_graphics.calls ++ [GfxCall.load_from_tilesheet_into_vram
            ResourceId.RESOURCE_ID_DATA_DOT_TILESHEET 0
            (640 / sample_cfg.GBC_TILE_NUM_BYTES % 2 ^ 16) 0 0]
        ∧ (640 / sample_cfg.GBC_TILE_NUM_BYTES < 2 ^ 16 →
            g1.calls = stale_graphics.calls ++ [GfxCall.load_from_tilesheet_into_vram
              ResourceId.RESOURCE_ID_DATA_DOT_TILESHEET 0
              (640 / sample_cfg.GBC_TILE_NUM_BYTES) 0 0]) :=
  ⟨by decide, load_tilesheet_request sample_cfg (by decide) 640 stale_graphics⟩

/-- C9 (counterexample). For a resource of `2 ^ 20` bytes and 16 bytes per tile
the quotient is 65536, and `load_tilesheet` asks for 0 tiles. -/
theorem load_tilesheet_truncates :
    1048576 / sample_cfg.GBC_TILE_NUM_BYTES = 65536
      ∧ ∃ g1, load_tilesheet sample_cfg 1048576 stale_graphics = some g1
        ∧ g1.calls = [GfxCall.load_from_tilesheet_into_vram
            ResourceId.RESOURCE_ID_DATA_DOT_TILESHEET 0 0 0 0]
        ∧ g1.calls ≠ [GfxCall.load_from_tilesheet_into_vram
            ResourceId.RESOURCE_ID_DATA_DOT_TILESHEET 0
            (1048576 / sample_cfg.GBC_TILE_NUM_BYTES) 0 0] := by
  refine ⟨by decide, _, rfl, by decide, by decide⟩

/-- C8. Scene setup: `window_load` has a result, and the calls it makes on the
graphics context are, in this order and once each: the constructor with one
video-memory bank; the tilesheet load into bank 0 from tilesheet offset 0 to
VRAM tile offset 0; background palette 0 as (foreground, background,
background, background); tile 0 and palette 0 on every cell of the tilemap; on
round geometry only, the background move by (-2, -6); the overlay layer
y-offset set to the screen height; the calls of one `update_time`; the render
request.  The clear precedes the `update_time`, and with 5 by 8 glyphs the
tilemap at the render request has full coverage. -/
theorem window_load_sequence (cfg : Config) (hok : glyphs_ok cfg)
    (hW : cfg.NUMBER_WIDTH = 5) (hH : cfg.NUMBER_HEIGHT = 8)
    (hw : cfg.GBC_TILEMAP_WIDTH ≤ 255) (hh : cfg.GBC_TILEMAP_HEIGHT ≤ 255)
    (hbytes : 0 < cfg.GBC_TILE_NUM_BYTES)
    (fuel : Nat) (hfw : cfg.GBC_TILEMAP_WIDTH < fuel) (hfh : cfg.GBC_TILEMAP_HEIGHT < fuel)
    (res_size : Nat) (style : Bool) (tm : Tm) (hhour : tm.tm_hour ≤ 23) (hmin : tm.tm_min ≤ 59)
    (fresh : GBC_Graphics) :
    ∃ g, window_load cfg fuel res_size style tm fresh = some g
      ∧ g.calls =
          [GfxCall.ctor 1,
            GfxCall.load_from_tilesheet_into_vram ResourceId.RESOURCE_ID_DATA_DOT_TILESHEET 0
              (res_size / cfg.GBC_TILE_NUM_BYTES % 2 ^ 16) 0 0,
            GfxCall.set_bg_palette 0
              (if cfg.PBL_COLOR then Color.GColorBlackARGB8 else Color.GBC_COLOR_BLACK)
              (if cfg.PBL_COLOR then Color.GColorWhiteARGB8 else Color.GBC_COLOR_WHITE)
              (if cfg.PBL_COLOR then Color.GColorWhiteARGB8 else Color.GBC_COLOR_WHITE)
              (if cfg.PBL_COLOR then Color.GColorWhiteARGB8 else Color.GBC_COLOR_WHITE)]
          ++ clear_calls cfg.GBC_TILEMAP_WIDTH cfg.GBC_TILEMAP_HEIGHT
          ++ (if cfg.PBL_ROUND then [GfxCall.bg_move (-2) (-6)] else [])
          ++ [GfxCall.window_set_offset_y fresh.screen_height]
          ++ update_calls cfg (formatted_digit style tm 0) (formatted_digit style tm 1)
              (formatted_digit style tm 2) (formatted_digit style tm 3)
          ++ [GfxCall.render]
      ∧ full_coverage cfg style tm g.bg_tilemap := by
  have hne : cfg.GBC_TILE_NUM_BYTES ≠ 0 := by omega
  have hpal : ∀ g, create_palettes cfg g = GBC_Graphics_set_bg_palette g 0
      (if cfg.PBL_COLOR then Color.GColorBlackARGB8 else Color.GBC_COLOR_BLACK)
      (if cfg.PBL_COLOR then Color.GColorWhiteARGB8 else Color.GBC_COLOR_WHITE)
      (if cfg.PBL_COLOR then Color.GColorWhiteARGB8 else Color.GBC_COLOR_WHITE)
      (if cfg.PBL_COLOR then Color.GColorWhiteARGB8 else Color.GBC_COLOR_WHITE) := by
    intro g
    unfold create_palettes
    split_ifs <;> rfl
  have hres : window_load cfg fuel res_size style tm fresh
      = some (GBC_Graphics_render
          (replay (update_calls cfg (formatted_digit style tm 0) (formatted_digit style tm 1)
              (formatted_digit style tm 2) (formatted_digit style tm 3))
            (hide_window_layer
              (replay (clear_calls cfg.GBC_TILEMAP_WIDTH cfg.GBC_TILEMAP_HEIGHT
                  ++ (if cfg.PBL_ROUND then [GfxCall.bg_move (-2) (-6)] else []))
                (create_palettes cfg
                  (GBC_Graphics_load_from_tilesheet_into_vram
                    (GBC_Graphics_ctor fresh NUMBER_OF_VRAM_BANKS_TO_GENERATE)
                    ResourceId.RESOURCE_ID_DATA_DOT_TILESHEET 0
                    (res_size / cfg.GBC_TILE_NUM_BYTES % 2 ^ 16) 0 0)))))) := by
    simp only [window_load, load_tilesheet, if_neg hne, Option.bind_eq_bind, Option.some_bind,
      generate_background_eq cfg hw hh fuel hfw hfh, update_time_eq cfg hok style tm hhour hmin,
      Option.pure_def]
  refine ⟨_, hres, ?_, ?_⟩
  · simp only [GBC_Graphics_render, replay_calls, hide_window_layer,
      GBC_Graphics_window_set_offset_y, GBC_Graphics_get_screen_height, replay_screen_height,
      hpal, GBC_Graphics_set_bg_palette, GBC_Graphics_load_from_tilesheet_into_vram,
      GBC_Graphics_ctor, NUMBER_OF_VRAM_BANKS_TO_GENERATE]
    simp only [List.append_assoc, List.cons_append, List.nil_append]
  · exact full_coverage_of_cleared cfg hok hW hH style tm hhour hmin _
      (fun cx cy h1 h2 h3 h4 => (clear_calls_cleared cfg _ cx cy h1 h2 h3 h4).1)

/-- Witness for `window_load_sequence`: the sample build, a tilesheet of 640
bytes, 12:34 with the 24-hour preference. -/
theorem window_load_sequence_witness :
    glyphs_ok sample_cfg
      ∧ ∃ g, window_load sample_cfg 33 640 true ⟨12, 34⟩ stale_graphics = some g
        ∧ g.calls =
            [GfxCall.ctor 1,
              GfxCall.load_from_tilesheet_into_vram ResourceId.RESOURCE_ID_DATA_DOT_TILESHEET 0
                (640 / sample_cfg.GBC_TILE_NUM_BYTES % 2 ^ 16) 0 0,
              GfxCall.set_bg_palette 0
                (if sample_cfg.PBL_COLOR then Color.GColorBlackARGB8 else Color.GBC_COLOR_BLACK)
                (if sample_cfg.PBL_COLOR then Color.GColorWhiteARGB8 else Color.GBC_COLOR_WHITE)
                (if sample_cfg.PBL_COLOR then Color.GColorWhiteARGB8 else Color.GBC_COLOR_WHITE)
                (if sample_cfg.PBL_COLOR then Color.GColorWhiteARGB8 else Color.GBC_COLOR_WHITE)]
            ++ clear_calls sample_cfg.GBC_TILEMAP_WIDTH sample_cfg.GBC_TILEMAP_HEIGHT
            ++ (if sample_cfg.PBL_ROUND then [GfxCall.bg_move (-2) (-6)] else [])
            ++ [GfxCall.window_set_offset_y stale_graphics.screen_height]
            ++ update_calls sample_cfg (formatted_digit true ⟨12, 34⟩ 0)
                (formatted_digit true ⟨12, 34⟩ 1) (formatted_digit true ⟨12, 34⟩ 2)
                (formatted_digit true ⟨12, 34⟩ 3)
            ++ [GfxCall.render]
        ∧ full_coverage sample_cfg true ⟨12, 34⟩ g.bg_tilemap :=
  ⟨by decide, window_load_sequence sample_cfg (by decide) rfl rfl (by decide) (by decide)
    (by decide) 33 (by decide) (by decide) 640 true ⟨12, 34⟩ (by decide) (by decide)
    stale_graphics⟩

end Dots
